import Mathlib

/-!
Verification of the C chess engine (board state machine, rules oracle,
move generation, search entry point, and file I/O) against its
natural-language specification.

The development is a shallow embedding of the C sources:
* `structs.h`   — data types (`Piece`, `Move`, `CastlingRights`, `BoardState`);
* `game.c`      — `makeMove`, `undoMove`, `isSquareAttacked`, `isKingInCheck`;
* `ai.c`        — move generation, MVV-LVA ordering, negamax search,
                  `findBestMove`, `generateAllLegalMoves`;
* `eval.c`      — `evaluateBoard` with material, piece-square tables, mobility;
* `fileio.c`    — `charToPiece`, `algebraicToPos`, `loadBoardFromFile`;
* `main.c`      — `parseMove`, `resolveMove`, the default starting position.

Modelling conventions:
* C `int` coordinates and counters become `Int`; the 8×8 board is a total
  function `Fin 8 → Fin 8 → Piece`.  Reads through `getSq` of an off-board
  square return the empty piece and writes through `setSq` to an off-board
  square are dropped; in the C source such accesses are undefined behaviour.
  Claim C10 shows the pawn generator's unguarded reads stay on the board
  under the stated precondition.
* The process-wide history stack of `game.c` is modelled by explicit record
  passing: `makeMove` returns the updated state together with the
  `MoveRecord` it pushes, and `undoMove` takes the record that `popHistory`
  would return.  The C `undoMove` ignores its `move` parameter and uses the
  popped record, which is exactly the record argument here.
* Loops with early `return`/`break` become structurally recursive helper
  functions; the unbounded C recursion of `negamax`/`quiescence` gets an
  explicit fuel parameter (the C recursion terminates because captures are
  finite and the halfmove clock cuts off quiet lines; every theorem below is
  uniform in the fuel).
-/

namespace Chess

/-- Piece kinds, from `structs.h` (`PieceType`). -/
inductive PieceType where
  | EMPTY
  | PAWN
  | KNIGHT
  | BISHOP
  | ROOK
  | QUEEN
  | KING
deriving DecidableEq, Repr

/-- Piece colors, from `structs.h` (`PieceColor`). -/
inductive PieceColor where
  | WHITE
  | BLACK
  | NO_COLOR
deriving DecidableEq, Repr

/-- A board coordinate pair, from `structs.h` (`Position`); `row = -1` is the
null marker used for the empty en-passant target and the null move. -/
structure Position where
  row : Int
  col : Int
deriving DecidableEq, Repr

/-- A piece, from `structs.h` (`Piece`). -/
structure Piece where
  type : PieceType
  color : PieceColor
deriving DecidableEq, Repr

/-- The `MOVE_*` flag constants of `structs.h`, as an enumeration. -/
inductive MoveFlag where
  | NORMAL
  | PROMOTION
  | EN_PASSANT
  | CASTLE_KING
  | CASTLE_QUEEN
deriving DecidableEq, Repr

/-- A move, from `structs.h` (`Move`).  `from`/`to` are Lean keywords, so the
fields are named `fromSq`/`toSq`. -/
structure Move where
  fromSq : Position
  toSq : Position
  promotion : PieceType
  flag : MoveFlag
deriving DecidableEq, Repr

/-- Castling rights, from `structs.h` (`CastlingRights`); the C `int` flags
hold 0/1 and are modelled as `Bool`. -/
structure CastlingRights where
  wk : Bool
  wq : Bool
  bk : Bool
  bq : Bool
deriving DecidableEq, Repr

/-- The board state, from `structs.h` (`BoardState`). -/
structure BoardState where
  squares : Fin 8 → Fin 8 → Piece
  currentPlayer : PieceColor
  castling : CastlingRights
  enPassantTarget : Position
  halfmoveClock : Int
  fullmoveNumber : Int

/-- The history record pushed by `makeMove`, from `game.c` (`MoveRecord`). -/
structure MoveRecord where
  move : Move
  captured : Piece
  prevCastling : CastlingRights
  prevEnPassant : Position
  prevHalfmoveClock : Int
  prevFullmoveNumber : Int
  prevPlayer : PieceColor
deriving DecidableEq, Repr

instance : DecidableEq BoardState := fun a b =>
  decidable_of_iff
    (a.squares = b.squares ∧ a.currentPlayer = b.currentPlayer ∧
     a.castling = b.castling ∧ a.enPassantTarget = b.enPassantTarget ∧
     a.halfmoveClock = b.halfmoveClock ∧ a.fullmoveNumber = b.fullmoveNumber)
    (by cases a; cases b; simp)

/-- The `(Piece){EMPTY, NO_COLOR}` literal used throughout the C sources. -/
def emptyPiece : Piece := ⟨PieceType.EMPTY, PieceColor.NO_COLOR⟩

/-- The `(Position){-1,-1}` null marker. -/
def nullPos : Position := ⟨-1, -1⟩

/-- `onBoard` from `game.c`: `r` and `c` lie in `[0,8)`. -/
def onBoard (r c : Int) : Prop := 0 ≤ r ∧ r < 8 ∧ 0 ≤ c ∧ c < 8

instance (r c : Int) : Decidable (onBoard r c) := by
  unfold onBoard; infer_instance

/-- Read `squares[r][c]`.  Off-board reads (undefined behaviour in C) return
the empty piece; see the header comment. -/
def getSq (sq : Fin 8 → Fin 8 → Piece) (r c : Int) : Piece :=
  if h : onBoard r c then
    sq ⟨r.toNat, by have h1 := h.1; have h2 := h.2.1; omega⟩
      ⟨c.toNat, by have h1 := h.2.2.1; have h2 := h.2.2.2; omega⟩
  else emptyPiece

/-- Write `squares[r][c] = p`.  Off-board writes are dropped. -/
def setSq (sq : Fin 8 → Fin 8 → Piece) (r c : Int) (p : Piece) :
    Fin 8 → Fin 8 → Piece :=
  fun i j => if (i : Int) = r ∧ (j : Int) = c then p else sq i j

/-- Pawn direction per side (`dir` in `generatePawnMoves`): White pawns move
toward row 0, Black pawns toward row 7. -/
def dirOf (player : PieceColor) : Int :=
  if player = PieceColor.WHITE then -1 else 1

/-- Pawn start row (`startRow` in `generatePawnMoves`). -/
def startRowOf (player : PieceColor) : Int :=
  if player = PieceColor.WHITE then 6 else 1

/-- Pawn promotion row (`promotionRank` in `generatePawnMoves`). -/
def promotionRankOf (player : PieceColor) : Int :=
  if player = PieceColor.WHITE then 0 else 7

/-- The castle branch of `makeMove` clears both rights of the moving
piece's color. -/
def castleBranchRights (cr : CastlingRights) (movingColor : PieceColor) :
    CastlingRights :=
  if movingColor = PieceColor.WHITE then { cr with wk := false, wq := false }
  else { cr with bk := false, bq := false }

/-- Step 2 of `makeMove`: clear the right matching a rook captured on a home
corner. -/
def rookCaptureRights (cr : CastlingRights) (captured : Piece) (t : Position) :
    CastlingRights :=
  if captured.type = PieceType.ROOK then
    if captured.color = PieceColor.WHITE then
      let x := if t.row = 7 ∧ t.col = 0 then { cr with wq := false } else cr
      if t.row = 7 ∧ t.col = 7 then { x with wk := false } else x
    else
      let x := if t.row = 0 ∧ t.col = 0 then { cr with bq := false } else cr
      if t.row = 0 ∧ t.col = 7 then { x with bk := false } else x
  else cr

/-- Step 2 of `makeMove`: clear the right matching a rook moved from a home
corner. -/
def rookMoveRights (cr : CastlingRights) (moving : Piece) (f : Position) :
    CastlingRights :=
  if moving.type = PieceType.ROOK then
    if moving.color = PieceColor.WHITE then
      let x := if f.row = 7 ∧ f.col = 0 then { cr with wq := false } else cr
      if f.row = 7 ∧ f.col = 7 then { x with wk := false } else x
    else
      let x := if f.row = 0 ∧ f.col = 0 then { cr with bq := false } else cr
      if f.row = 0 ∧ f.col = 7 then { x with bk := false } else x
  else cr

/-- Step 2 of `makeMove`: a king move clears both rights of its color. -/
def kingMoveRights (cr : CastlingRights) (moving : Piece) : CastlingRights :=
  if moving.type = PieceType.KING then castleBranchRights cr moving.color else cr

/-- `makeMove` from `game.c`.  Returns the mutated state and the
`MoveRecord` pushed onto the history stack.  Each field of the result is
bound separately (the C function updates them in place); the board-squares
branches follow the C control flow: castling (king plus rook relocation),
en passant (pawn move plus capture behind the target), promotion, and the
plain move that the other flags share. -/
def makeMove (board : BoardState) (move : Move) : BoardState × MoveRecord :=
  let f := move.fromSq
  let t := move.toSq
  let moving := getSq board.squares f.row f.col
  let captured0 := getSq board.squares t.row t.col
  let isCastle := move.flag = MoveFlag.CASTLE_KING ∨ move.flag = MoveFlag.CASTLE_QUEEN
  -- the en-passant victim row (used only by the EN_PASSANT branch)
  let capRow := if board.currentPlayer = PieceColor.WHITE then t.row + 1 else t.row - 1
  -- moving piece copied to the destination, source cleared
  let movedSq := setSq (setSq board.squares t.row t.col moving) f.row f.col emptyPiece
  let sqFinal :=
    if isCastle then
      if moving.color = PieceColor.WHITE then
        if move.flag = MoveFlag.CASTLE_KING then
          setSq (setSq movedSq 7 5 (getSq movedSq 7 7)) 7 7 emptyPiece
        else
          setSq (setSq movedSq 7 3 (getSq movedSq 7 0)) 7 0 emptyPiece
      else
        if move.flag = MoveFlag.CASTLE_KING then
          setSq (setSq movedSq 0 5 (getSq movedSq 0 7)) 0 7 emptyPiece
        else
          setSq (setSq movedSq 0 3 (getSq movedSq 0 0)) 0 0 emptyPiece
    else if move.flag = MoveFlag.EN_PASSANT then
      if onBoard capRow t.col then setSq movedSq capRow t.col emptyPiece
      else movedSq
    else if move.flag = MoveFlag.PROMOTION ∧ moving.type = PieceType.PAWN then
      setSq (setSq board.squares t.row t.col ⟨move.promotion, moving.color⟩)
        f.row f.col emptyPiece
    else movedSq
  -- `rec.captured`, overwritten by the EN_PASSANT branch when the victim
  -- square is on the board
  let captured :=
    if move.flag = MoveFlag.EN_PASSANT ∧ onBoard capRow t.col then
      getSq movedSq capRow t.col
    else captured0
  let resetHalfmove : Bool :=
    if isCastle then true
    else if move.flag = MoveFlag.EN_PASSANT then true
    else
      (if move.flag = MoveFlag.PROMOTION ∧ moving.type = PieceType.PAWN then true
       else decide (captured0.type ≠ PieceType.EMPTY)) ||
      decide (moving.type = PieceType.PAWN ∧ (t.row - f.row).natAbs = 2)
  let epFinal :=
    if isCastle ∨ move.flag = MoveFlag.EN_PASSANT then nullPos
    else if moving.type = PieceType.PAWN ∧ (t.row - f.row).natAbs = 2 then
      (⟨(f.row + t.row).tdiv 2, f.col⟩ : Position)
    else nullPos
  let cr1 := if isCastle then castleBranchRights board.castling moving.color
             else board.castling
  let cr4 := kingMoveRights (rookMoveRights (rookCaptureRights cr1 captured t) moving f)
    moving
  let halfmoveFinal : Int := if resetHalfmove then 0 else board.halfmoveClock + 1
  let fullmoveFinal : Int :=
    if board.currentPlayer = PieceColor.BLACK then board.fullmoveNumber + 1
    else board.fullmoveNumber
  let playerFinal :=
    if board.currentPlayer = PieceColor.WHITE then PieceColor.BLACK else PieceColor.WHITE
  (⟨sqFinal, playerFinal, cr4, epFinal, halfmoveFinal, fullmoveFinal⟩,
   ⟨move, captured, board.castling, board.enPassantTarget,
    board.halfmoveClock, board.fullmoveNumber, board.currentPlayer⟩)

/-- `undoMove` from `game.c`, with the popped history record passed
explicitly (the C function ignores its `move` parameter and uses the
record). -/
def undoMove (board : BoardState) (hist : MoveRecord) : BoardState :=
  let f := hist.move.fromSq
  let t := hist.move.toSq
  let base : BoardState :=
    { board with
        currentPlayer := hist.prevPlayer
        halfmoveClock := hist.prevHalfmoveClock
        fullmoveNumber := hist.prevFullmoveNumber
        castling := hist.prevCastling
        enPassantTarget := hist.prevEnPassant }
  if hist.move.flag = MoveFlag.CASTLE_KING ∨ hist.move.flag = MoveFlag.CASTLE_QUEEN then
    let movedPiece := getSq base.squares t.row t.col
    let sq2 := setSq (setSq base.squares f.row f.col movedPiece) t.row t.col emptyPiece
    let sq3 :=
      if hist.prevPlayer = PieceColor.WHITE then
        if hist.move.flag = MoveFlag.CASTLE_KING then
          setSq (setSq sq2 7 7 (getSq sq2 7 5)) 7 5 emptyPiece
        else
          setSq (setSq sq2 7 0 (getSq sq2 7 3)) 7 3 emptyPiece
      else
        if hist.move.flag = MoveFlag.CASTLE_KING then
          setSq (setSq sq2 0 7 (getSq sq2 0 5)) 0 5 emptyPiece
        else
          setSq (setSq sq2 0 0 (getSq sq2 0 3)) 0 3 emptyPiece
    { base with squares := sq3 }
  else if hist.move.flag = MoveFlag.EN_PASSANT then
    let movedPiece := getSq base.squares t.row t.col
    let sq2 := setSq (setSq base.squares f.row f.col movedPiece) t.row t.col emptyPiece
    let capRow := if hist.prevPlayer = PieceColor.WHITE then t.row + 1 else t.row - 1
    let sq3 := if onBoard capRow t.col then setSq sq2 capRow t.col hist.captured else sq2
    { base with squares := sq3 }
  else if hist.move.flag = MoveFlag.PROMOTION then
    let sq2 := setSq (setSq base.squares f.row f.col ⟨PieceType.PAWN, hist.prevPlayer⟩)
      t.row t.col hist.captured
    { base with squares := sq2 }
  else
    let sq2 := setSq (setSq base.squares f.row f.col (getSq base.squares t.row t.col))
      t.row t.col hist.captured
    { base with squares := sq2 }

/-- The eight ray directions of `isSquareAttacked` in `game.c`, in array
order, paired with whether the index is `< 4` (a diagonal). -/
def slideDirections : List ((Int × Int) × Bool) :=
  [((-1, -1), true), ((-1, 1), true), ((1, -1), true), ((1, 1), true),
   ((-1, 0), false), ((1, 0), false), ((0, -1), false), ((0, 1), false)]

/-- The knight offsets of `game.c`/`ai.c`, in array order. -/
def knightOffsets : List (Int × Int) :=
  [(-2, -1), (-2, 1), (-1, -2), (-1, 2), (1, -2), (1, 2), (2, -1), (2, 1)]

/-- The king adjacency offsets (the `i`/`j` double loop skipping `(0,0)`). -/
def kingOffsets : List (Int × Int) :=
  [(-1, -1), (-1, 0), (-1, 1), (0, -1), (0, 1), (1, -1), (1, 0), (1, 1)]

/-- The inner `k` loop of the sliding-attack scan in `isSquareAttacked`:
walk outward from `(r,c)` in direction `(dR,dC)` until the board edge or the
first non-empty square, which attacks iff it has the attacker's color and a
kind matching the ray type.  Fuel 7 reproduces `k < 8`. -/
def rayAttacks (sq : Fin 8 → Fin 8 → Piece) (atk : PieceColor) (isDiag : Bool) :
    Int → Int → Int → Int → Nat → Bool
  | _, _, _, _, 0 => false
  | r, c, dR, dC, fuel + 1 =>
    let nR := r + dR
    let nC := c + dC
    if onBoard nR nC then
      let p := getSq sq nR nC
      if p.type ≠ PieceType.EMPTY then
        decide (p.color = atk ∧
          (p.type = PieceType.QUEEN ∨
           (isDiag = true ∧ p.type = PieceType.BISHOP) ∨
           (isDiag = false ∧ p.type = PieceType.ROOK)))
      else rayAttacks sq atk isDiag nR nC dR dC fuel
    else false

/-- `isSquareAttacked` from `game.c`: sliding pieces, knights, pawns
(sampling `(r + d, c±1)` with `d = -1` for a White attacker), then kings. -/
def isSquareAttacked (board : BoardState) (r c : Int) (atk : PieceColor) : Bool :=
  (slideDirections.any fun d =>
    rayAttacks board.squares atk d.2 r c d.1.1 d.1.2 7) ||
  (knightOffsets.any fun d =>
    decide (onBoard (r + d.1) (c + d.2)) &&
    (let p := getSq board.squares (r + d.1) (c + d.2)
     decide (p.color = atk ∧ p.type = PieceType.KNIGHT))) ||
  (let pawnDir : Int := if atk = PieceColor.WHITE then -1 else 1
   let pr := r + pawnDir
   decide (0 ≤ pr ∧ pr < 8) &&
   ((decide (c - 1 ≥ 0) &&
     (let p := getSq board.squares pr (c - 1)
      decide (p.color = atk ∧ p.type = PieceType.PAWN))) ||
    (decide (c + 1 < 8) &&
     (let p := getSq board.squares pr (c + 1)
      decide (p.color = atk ∧ p.type = PieceType.PAWN))))) ||
  (kingOffsets.any fun d =>
    decide (onBoard (r + d.1) (c + d.2)) &&
    (let p := getSq board.squares (r + d.1) (c + d.2)
     decide (p.color = atk ∧ p.type = PieceType.KING)))

/-- `findKing` from `game.c`: first square (row-major) holding the king of
the given color, else `(-1,-1)`. -/
def findKing (sq : Fin 8 → Fin 8 → Piece) (color : PieceColor) : Position :=
  match (List.finRange 8).findSome? (fun r =>
      (List.finRange 8).findSome? (fun c =>
        if (sq r c).type = PieceType.KING ∧ (sq r c).color = color then
          some (⟨(r : Int), (c : Int)⟩ : Position)
        else none)) with
  | some p => p
  | none => nullPos

/-- `isKingInCheck` from `game.c`. -/
def isKingInCheck (board : BoardState) (kingColor : PieceColor) : Bool :=
  let kp := findKing board.squares kingColor
  if kp.row = -1 then false
  else
    isSquareAttacked board kp.row kp.col
      (if kingColor = PieceColor.WHITE then PieceColor.BLACK else PieceColor.WHITE)

/-- `addMove` from `ai.c`: drop the move if the destination is off the board,
or (except for en passant) occupied by a piece of the side to move; the move
contributes a singleton list otherwise. -/
def addMove (board : BoardState) (move : Move) : List Move :=
  if ¬ onBoard move.toSq.row move.toSq.col then []
  else if move.flag ≠ MoveFlag.EN_PASSANT ∧
      (getSq board.squares move.toSq.row move.toSq.col).color = board.currentPlayer then []
  else [move]

/-- `generatePawnMoves` from `ai.c`: single push (four promotions on the
promotion rank), double push from the start row, diagonal captures (with
promotions), and en passant onto the en-passant target. -/
def generatePawnMoves (board : BoardState) (r c : Int) : List Move :=
  let player := board.currentPlayer
  let dir := dirOf player
  let startRow := startRowOf player
  let promotionRank := promotionRankOf player
  let f : Position := ⟨r, c⟩
  let pushes :=
    if 0 ≤ r + dir ∧ r + dir < 8 ∧
        (getSq board.squares (r + dir) c).type = PieceType.EMPTY then
      if r + dir = promotionRank then
        addMove board ⟨f, ⟨r + dir, c⟩, PieceType.QUEEN, MoveFlag.PROMOTION⟩ ++
        addMove board ⟨f, ⟨r + dir, c⟩, PieceType.ROOK, MoveFlag.PROMOTION⟩ ++
        addMove board ⟨f, ⟨r + dir, c⟩, PieceType.BISHOP, MoveFlag.PROMOTION⟩ ++
        addMove board ⟨f, ⟨r + dir, c⟩, PieceType.KNIGHT, MoveFlag.PROMOTION⟩
      else
        addMove board ⟨f, ⟨r + dir, c⟩, PieceType.EMPTY, MoveFlag.NORMAL⟩
    else []
  let doublePush :=
    if r = startRow ∧ (getSq board.squares (r + dir) c).type = PieceType.EMPTY ∧
        (getSq board.squares (r + 2 * dir) c).type = PieceType.EMPTY then
      addMove board ⟨f, ⟨r + 2 * dir, c⟩, PieceType.EMPTY, MoveFlag.NORMAL⟩
    else []
  let captures := [c - 1, c + 1].flatMap fun newC =>
    if 0 ≤ newC ∧ newC < 8 then
      let target := getSq board.squares (r + dir) newC
      let normalCaps :=
        if target.type ≠ PieceType.EMPTY ∧ target.color ≠ player then
          if r + dir = promotionRank then
            addMove board ⟨f, ⟨r + dir, newC⟩, PieceType.QUEEN, MoveFlag.PROMOTION⟩ ++
            addMove board ⟨f, ⟨r + dir, newC⟩, PieceType.ROOK, MoveFlag.PROMOTION⟩ ++
            addMove board ⟨f, ⟨r + dir, newC⟩, PieceType.BISHOP, MoveFlag.PROMOTION⟩ ++
            addMove board ⟨f, ⟨r + dir, newC⟩, PieceType.KNIGHT, MoveFlag.PROMOTION⟩
          else
            addMove board ⟨f, ⟨r + dir, newC⟩, PieceType.EMPTY, MoveFlag.NORMAL⟩
        else []
      let epCaps :=
        if r + dir = board.enPassantTarget.row ∧ newC = board.enPassantTarget.col then
          addMove board ⟨f, ⟨r + dir, newC⟩, PieceType.EMPTY, MoveFlag.EN_PASSANT⟩
        else []
      normalCaps ++ epCaps
    else []
  pushes ++ doublePush ++ captures

/-- `generateKnightMoves` from `ai.c`. -/
def generateKnightMoves (board : BoardState) (r c : Int) : List Move :=
  knightOffsets.flatMap fun d =>
    addMove board ⟨⟨r, c⟩, ⟨r + d.1, c + d.2⟩, PieceType.EMPTY, MoveFlag.NORMAL⟩

/-- The inner ray walk of `generateSlidingMoves` in `ai.c`: empty squares
yield moves, an opposing piece yields a final capture, an own piece stops
the ray.  Fuel 7 reproduces `k < 8`. -/
def slideRay (board : BoardState) (fR fC : Int) :
    Int → Int → Int → Int → Nat → List Move
  | _, _, _, _, 0 => []
  | r, c, dR, dC, fuel + 1 =>
    let nR := r + dR
    let nC := c + dC
    if ¬ onBoard nR nC then []
    else
      let target := getSq board.squares nR nC
      if target.type = PieceType.EMPTY then
        addMove board ⟨⟨fR, fC⟩, ⟨nR, nC⟩, PieceType.EMPTY, MoveFlag.NORMAL⟩ ++
        slideRay board fR fC nR nC dR dC fuel
      else if target.color ≠ board.currentPlayer then
        addMove board ⟨⟨fR, fC⟩, ⟨nR, nC⟩, PieceType.EMPTY, MoveFlag.NORMAL⟩
      else []

/-- `generateSlidingMoves` from `ai.c`: bishops use the four diagonal
directions, rooks the four orthogonal ones, queens all eight. -/
def generateSlidingMoves (board : BoardState) (r c : Int) : List Move :=
  let p := getSq board.squares r c
  let dirs :=
    if p.type = PieceType.BISHOP then slideDirections.take 4
    else if p.type = PieceType.ROOK then slideDirections.drop 4
    else slideDirections
  dirs.flatMap fun d => slideRay board r c r c d.1.1 d.1.2 7

/-- `generateKingMoves` from `ai.c`: the eight adjacent squares, plus
castling when not in check; the castle clauses test only the rights flags,
the emptiness of the intermediate squares and attacks on the king path, and
emit moves with the hard-coded home coordinates. -/
def generateKingMoves (board : BoardState) (r c : Int) : List Move :=
  let player := board.currentPlayer
  let opponent := if player = PieceColor.WHITE then PieceColor.BLACK else PieceColor.WHITE
  let normals := kingOffsets.flatMap fun d =>
    addMove board ⟨⟨r, c⟩, ⟨r + d.1, c + d.2⟩, PieceType.EMPTY, MoveFlag.NORMAL⟩
  if isKingInCheck board player then normals
  else
    let castles :=
      if player = PieceColor.WHITE then
        (if board.castling.wk ∧
            (getSq board.squares 7 5).type = PieceType.EMPTY ∧
            (getSq board.squares 7 6).type = PieceType.EMPTY ∧
            ¬ isSquareAttacked board 7 5 opponent = true ∧
            ¬ isSquareAttacked board 7 6 opponent = true then
          addMove board ⟨⟨7, 4⟩, ⟨7, 6⟩, PieceType.EMPTY, MoveFlag.CASTLE_KING⟩
        else []) ++
        (if board.castling.wq ∧
            (getSq board.squares 7 1).type = PieceType.EMPTY ∧
            (getSq board.squares 7 2).type = PieceType.EMPTY ∧
            (getSq board.squares 7 3).type = PieceType.EMPTY ∧
            ¬ isSquareAttacked board 7 2 opponent = true ∧
            ¬ isSquareAttacked board 7 3 opponent = true then
          addMove board ⟨⟨7, 4⟩, ⟨7, 2⟩, PieceType.EMPTY, MoveFlag.CASTLE_QUEEN⟩
        else [])
      else
        (if board.castling.bk ∧
            (getSq board.squares 0 5).type = PieceType.EMPTY ∧
            (getSq board.squares 0 6).type = PieceType.EMPTY ∧
            ¬ isSquareAttacked board 0 5 opponent = true ∧
            ¬ isSquareAttacked board 0 6 opponent = true then
          addMove board ⟨⟨0, 4⟩, ⟨0, 6⟩, PieceType.EMPTY, MoveFlag.CASTLE_KING⟩
        else []) ++
        (if board.castling.bq ∧
            (getSq board.squares 0 1).type = PieceType.EMPTY ∧
            (getSq board.squares 0 2).type = PieceType.EMPTY ∧
            (getSq board.squares 0 3).type = PieceType.EMPTY ∧
            ¬ isSquareAttacked board 0 2 opponent = true ∧
            ¬ isSquareAttacked board 0 3 opponent = true then
          addMove board ⟨⟨0, 4⟩, ⟨0, 2⟩, PieceType.EMPTY, MoveFlag.CASTLE_QUEEN⟩
        else [])
    normals ++ castles

/-- `generatePseudoLegalMoves` from `ai.c`: walk every square row-major and
dispatch on the piece kind for pieces of the side to move. -/
def generatePseudoLegalMoves (board : BoardState) : List Move :=
  (List.finRange 8).flatMap fun r =>
    (List.finRange 8).flatMap fun c =>
      let p := board.squares r c
      if p.color = board.currentPlayer then
        match p.type with
        | PieceType.PAWN => generatePawnMoves board (r : Int) (c : Int)
        | PieceType.KNIGHT => generateKnightMoves board (r : Int) (c : Int)
        | PieceType.BISHOP => generateSlidingMoves board (r : Int) (c : Int)
        | PieceType.ROOK => generateSlidingMoves board (r : Int) (c : Int)
        | PieceType.QUEEN => generateSlidingMoves board (r : Int) (c : Int)
        | PieceType.KING => generateKingMoves board (r : Int) (c : Int)
        | PieceType.EMPTY => []
      else []

/-- The legality filter loop of `generateAllLegalMoves` in `ai.c`: for each
pseudo-legal move, make it, keep it when the mover's king is not in check,
and undo it.  The board is threaded sequentially, exactly as the C loop
mutates and restores the shared board. -/
def filterLegal (player : PieceColor) : BoardState → List Move → List Move
  | _, [] => []
  | b, m :: ms =>
    let res := makeMove b m
    let keep := ¬ isKingInCheck res.1 player = true
    let b2 := undoMove res.1 res.2
    if keep then m :: filterLegal player b2 ms else filterLegal player b2 ms

/-- `generateAllLegalMoves` from `ai.c`. -/
def generateAllLegalMoves (board : BoardState) : List Move :=
  filterLegal board.currentPlayer board (generatePseudoLegalMoves board)

/-! ### Evaluation (`eval.c`) -/

def pawnTable : List (List Int) :=
  [[0, 0, 0, 0, 0, 0, 0, 0],
   [50, 50, 50, 50, 50, 50, 50, 50],
   [10, 10, 20, 30, 30, 20, 10, 10],
   [5, 5, 10, 25, 25, 10, 5, 5],
   [0, 0, 0, 20, 20, 0, 0, 0],
   [5, -5, -10, 0, 0, -10, -5, 5],
   [5, 10, 10, -20, -20, 10, 10, 5],
   [0, 0, 0, 0, 0, 0, 0, 0]]

def knightTable : List (List Int) :=
  [[-50, -40, -30, -30, -30, -30, -40, -50],
   [-40, -20, 0, 0, 0, 0, -20, -40],
   [-30, 0, 10, 15, 15, 10, 0, -30],
   [-30, 5, 15, 20, 20, 15, 5, -30],
   [-30, 0, 15, 20, 20, 15, 0, -30],
   [-30, 5, 10, 15, 15, 10, 5, -30],
   [-40, -20, 0, 5, 5, 0, -20, -40],
   [-50, -40, -30, -30, -30, -30, -40, -50]]

def bishopTable : List (List Int) :=
  [[-20, -10, -10, -10, -10, -10, -10, -20],
   [-10, 0, 0, 0, 0, 0, 0, -10],
   [-10, 0, 5, 10, 10, 5, 0, -10],
   [-10, 5, 5, 10, 10, 5, 5, -10],
   [-10, 0, 10, 10, 10, 10, 0, -10],
   [-10, 10, 10, 10, 10, 10, 10, -10],
   [-10, 5, 0, 0, 0, 0, 5, -10],
   [-20, -10, -10, -10, -10, -10, -10, -20]]

def rookTable : List (List Int) :=
  [[0, 0, 0, 0, 0, 0, 0, 0],
   [5, 10, 10, 10, 10, 10, 10, 5],
   [-5, 0, 0, 0, 0, 0, 0, -5],
   [-5, 0, 0, 0, 0, 0, 0, -5],
   [-5, 0, 0, 0, 0, 0, 0, -5],
   [-5, 0, 0, 0, 0, 0, 0, -5],
   [-5, 0, 0, 0, 0, 0, 0, -5],
   [0, 0, 0, 5, 5, 0, 0, 0]]

def queenTable : List (List Int) :=
  [[-20, -10, -10, -5, -5, -10, -10, -20],
   [-10, 0, 0, 0, 0, 0, 0, -10],
   [-10, 0, 5, 5, 5, 5, 0, -10],
   [-5, 0, 5, 5, 5, 5, 0, -5],
   [0, 0, 5, 5, 5, 5, 0, -5],
   [-10, 5, 5, 5, 5, 5, 0, -10],
   [-10, 0, 5, 0, 0, 0, 0, -10],
   [-20, -10, -10, -5, -5, -10, -10, -20]]

def kingTable : List (List Int) :=
  [[-30, -40, -40, -50, -50, -40, -40, -30],
   [-30, -40, -40, -50, -50, -40, -40, -30],
   [-30, -40, -40, -50, -50, -40, -40, -30],
   [-30, -40, -40, -50, -50, -40, -40, -30],
   [-20, -30, -30, -40, -40, -30, -30, -20],
   [-10, -20, -20, -20, -20, -20, -20, -10],
   [20, 20, 0, 0, 0, 0, 20, 20],
   [20, 30, 10, 0, 0, 10, 30, 20]]

/-- A `table[row][col]` lookup (rows and columns are always in range at the
call sites). -/
def tableAt (t : List (List Int)) (row col : Int) : Int :=
  (t.getD row.toNat []).getD col.toNat 0

/-- `getPieceValue` from `eval.c`. -/
def getPieceValue (t : PieceType) : Int :=
  match t with
  | PieceType.PAWN => 100
  | PieceType.KNIGHT => 320
  | PieceType.BISHOP => 330
  | PieceType.ROOK => 500
  | PieceType.QUEEN => 900
  | PieceType.KING => 20000
  | PieceType.EMPTY => 0

/-- `getPiecePositionalScore` from `eval.c`: table lookup with the row
flipped for non-White pieces. -/
def getPiecePositionalScore (t : PieceType) (color : PieceColor) (r c : Int) : Int :=
  let row := if color = PieceColor.WHITE then r else 7 - r
  match t with
  | PieceType.PAWN => tableAt pawnTable row c
  | PieceType.KNIGHT => tableAt knightTable row c
  | PieceType.BISHOP => tableAt bishopTable row c
  | PieceType.ROOK => tableAt rookTable row c
  | PieceType.QUEEN => tableAt queenTable row c
  | PieceType.KING => tableAt kingTable row c
  | PieceType.EMPTY => 0

/-- The inner ray loop of `countSlidingMoves` in `eval.c`. -/
def countSlideRay (board : BoardState) (p : Piece) :
    Int → Int → Int → Int → Nat → Int
  | _, _, _, _, 0 => 0
  | r, c, dR, dC, fuel + 1 =>
    let nR := r + dR
    let nC := c + dC
    if ¬ onBoard nR nC then 0
    else if (getSq board.squares nR nC).type = PieceType.EMPTY then
      1 + countSlideRay board p nR nC dR dC fuel
    else if (getSq board.squares nR nC).color ≠ p.color then 1
    else 0

/-- `countSlidingMoves` from `eval.c`. -/
def countSlidingMoves (board : BoardState) (r c : Int) (p : Piece) : Int :=
  let dirs :=
    if p.type = PieceType.BISHOP then slideDirections.take 4
    else if p.type = PieceType.ROOK then slideDirections.drop 4
    else slideDirections
  dirs.foldl (fun acc d => acc + countSlideRay board p r c d.1.1 d.1.2 7) 0

/-- `countKnightMoves` from `eval.c`. -/
def countKnightMoves (board : BoardState) (r c : Int) (p : Piece) : Int :=
  knightOffsets.foldl
    (fun acc d =>
      if onBoard (r + d.1) (c + d.2) ∧
          (getSq board.squares (r + d.1) (c + d.2)).color ≠ p.color then
        acc + 1
      else acc)
    0

/-- `evaluateBoard` from `eval.c`: material plus piece-square score plus a
mobility bonus of 1 per pseudo-move for minor/major pieces, added for White
and subtracted for Black. -/
def evaluateBoard (board : BoardState) : Int :=
  (List.finRange 8).foldl
    (fun acc r =>
      (List.finRange 8).foldl
        (fun acc2 c =>
          let p := board.squares r c
          if p.type ≠ PieceType.EMPTY then
            let pieceScore :=
              getPieceValue p.type +
              getPiecePositionalScore p.type p.color (r : Int) (c : Int)
            let mobilityScore :=
              match p.type with
              | PieceType.KNIGHT => countKnightMoves board (r : Int) (c : Int) p
              | PieceType.BISHOP => countSlidingMoves board (r : Int) (c : Int) p
              | PieceType.ROOK => countSlidingMoves board (r : Int) (c : Int) p
              | PieceType.QUEEN => countSlidingMoves board (r : Int) (c : Int) p
              | _ => 0
            if p.color = PieceColor.WHITE then acc2 + pieceScore + mobilityScore * 1
            else acc2 - pieceScore - mobilityScore * 1
          else acc2)
        acc)
    0

/-! ### Search (`ai.c`) -/

def SEARCH_DEPTH : Int := 6

def INFINITY_SCORE : Int := 1000000

def MATE_VALUE : Int := INFINITY_SCORE - 1000

/-- The MVV-LVA ordering values of `scoreMove` in `ai.c` (the `switch`
statements; `default` leaves 0). -/
def orderValue (t : PieceType) : Int :=
  match t with
  | PieceType.PAWN => 100
  | PieceType.KNIGHT => 320
  | PieceType.BISHOP => 330
  | PieceType.ROOK => 500
  | PieceType.QUEEN => 900
  | PieceType.KING => 20000
  | PieceType.EMPTY => 0

/-- `scoreMove` from `ai.c`. -/
def scoreMove (board : BoardState) (m : Move) : Int :=
  let target := getSq board.squares m.toSq.row m.toSq.col
  if target.type ≠ PieceType.EMPTY then
    let victimVal := orderValue target.type
    let attackerVal := orderValue (getSq board.squares m.fromSq.row m.fromSq.col).type
    10000 + victimVal - attackerVal.tdiv 10
  else if m.flag = MoveFlag.PROMOTION then 9000
  else 0

/-- One adjacent-swap pass of the bubble sort in `scoreMoves`: a pair is
swapped when the left score is smaller. -/
def bubblePass : List (Int × Move) → List (Int × Move)
  | [] => []
  | [x] => [x]
  | x :: y :: rest =>
    if x.1 < y.1 then y :: bubblePass (x :: rest) else x :: bubblePass (y :: rest)

def bubbleIter : Nat → List (Int × Move) → List (Int × Move)
  | 0, l => l
  | n + 1, l => bubbleIter n (bubblePass l)

/-- `scoreMoves` from `ai.c`: score every move, then bubble-sort the list in
descending score order (the C index-based bubble sort and this functional
one perform the same adjacent swaps). -/
def scoreMoves (board : BoardState) (ms : List Move) : List Move :=
  (bubbleIter ms.length (ms.map fun m => (scoreMove board m, m))).map Prod.snd

/-- `isInsufficientMaterial` from `ai.c`: only kings remain. -/
def isInsufficientMaterial (board : BoardState) : Bool :=
  (List.finRange 8).all fun r =>
    (List.finRange 8).all fun c =>
      (board.squares r c).type = PieceType.EMPTY ∨
      (board.squares r c).type = PieceType.KING

mutual

/-- `quiescence` from `ai.c` with an explicit fuel bound on the recursion
depth (exhausted fuel returns `alpha`; all theorems are uniform in the
fuel). -/
def quiescence (fuel : Nat) (board : BoardState) (alpha beta : Int) : Int :=
  match fuel with
  | 0 => alpha
  | fuel' + 1 =>
    let stand_pat :=
      if board.currentPlayer = PieceColor.BLACK then -(evaluateBoard board)
      else evaluateBoard board
    if stand_pat ≥ beta then beta
    else
      let alpha1 := if stand_pat > alpha then stand_pat else alpha
      let moves := scoreMoves board (generateAllLegalMoves board)
      qLoop fuel' board beta moves alpha1
termination_by (fuel, 0)

/-- The capture loop of `quiescence`: skip quiet moves, recurse on the rest,
return `beta` on a fail-high.  The board is threaded through make/undo
exactly as the C loop mutates it. -/
def qLoop (fuel : Nat) (board : BoardState) (beta : Int) :
    List Move → Int → Int
  | [], alpha => alpha
  | m :: ms, alpha =>
    let target := getSq board.squares m.toSq.row m.toSq.col
    if target.type = PieceType.EMPTY ∧ m.flag ≠ MoveFlag.EN_PASSANT then
      qLoop fuel board beta ms alpha
    else
      let res := makeMove board m
      let score := -(quiescence fuel res.1 (-beta) (-alpha))
      let b2 := undoMove res.1 res.2
      if score ≥ beta then beta
      else qLoop fuel b2 beta ms (if score > alpha then score else alpha)
termination_by ms _alpha => (fuel, ms.length + 1)

end

mutual

/-- `negamax` from `ai.c` with an explicit fuel bound (exhausted fuel
returns 0): draw cutoffs, check extension, quiescence at depth 0, mate and
stalemate scores, and the alpha-beta loop. -/
def negamax (fuel : Nat) (board : BoardState) (depth alpha beta ply : Int) : Int :=
  match fuel with
  | 0 => 0
  | fuel' + 1 =>
    if board.halfmoveClock ≥ 100 ∨ isInsufficientMaterial board then 0
    else
      let inCheck := isKingInCheck board board.currentPlayer
      let depth1 := if inCheck then depth + 1 else depth
      if depth1 ≤ 0 then quiescence fuel' board alpha beta
      else
        let legalMoves := generateAllLegalMoves board
        if legalMoves.isEmpty then
          if inCheck then -MATE_VALUE + ply else 0
        else
          nLoop fuel' board depth1 beta ply (scoreMoves board legalMoves)
            (-INFINITY_SCORE) alpha
termination_by (fuel, 0)

/-- The alpha-beta loop of `negamax`: track the best score, raise alpha,
break on `alpha ≥ beta` (the C `break` followed by `return maxVal`). -/
def nLoop (fuel : Nat) (board : BoardState) (depth beta ply : Int) :
    List Move → Int → Int → Int
  | [], maxVal, _ => maxVal
  | m :: ms, maxVal, alpha =>
    let res := makeMove board m
    let score := -(negamax fuel res.1 (depth - 1) (-beta) (-alpha) (ply + 1))
    let b2 := undoMove res.1 res.2
    let maxVal1 := if score > maxVal then score else maxVal
    let alpha1 := if score > alpha then score else alpha
    if alpha1 ≥ beta then maxVal1
    else nLoop fuel b2 depth beta ply ms maxVal1 alpha1
termination_by ms _maxVal _alpha => (fuel, ms.length + 1)

end

/-- The root loop of `findBestMove` in `ai.c`: thread the board through
make/undo, track the best value and move, raise alpha (beta stays at
`+INFINITY_SCORE`). -/
def fLoop (fuel : Nat) : BoardState → List Move → Move → Int → Int → Move
  | _, [], best, _, _ => best
  | board, m :: ms, best, bestVal, alpha =>
    let res := makeMove board m
    let val := -(negamax fuel res.1 (SEARCH_DEPTH - 1) (-INFINITY_SCORE) (-alpha) 1)
    let b2 := undoMove res.1 res.2
    let best1 := if val > bestVal then m else best
    let bestVal1 := if val > bestVal then val else bestVal
    let alpha1 := if val > alpha then val else alpha
    fLoop fuel b2 ms best1 bestVal1 alpha1

/-- `findBestMove` from `ai.c`.  The C code initializes only
`bestMove.from`; the other fields are modelled as the null move's.  The
fail-safe picks the first move of the (sorted in place) legal-move list. -/
def findBestMove (fuel : Nat) (board : BoardState) : Move :=
  let nullMove : Move := ⟨⟨-1, -1⟩, ⟨-1, -1⟩, PieceType.EMPTY, MoveFlag.NORMAL⟩
  let legalMoves := generateAllLegalMoves board
  let sorted := scoreMoves board legalMoves
  let best := fLoop fuel board sorted nullMove (-INFINITY_SCORE) (-INFINITY_SCORE)
  if best.fromSq.row = -1 ∧ sorted.length > 0 then sorted.headD nullMove
  else best

/-! ### File I/O (`fileio.c`) and the user interface (`main.c`) -/

/-- `isupper` of `ctype.h`, restricted to the ASCII characters the board
files use. -/
def isUpperC (ch : Char) : Bool := 'A' ≤ ch ∧ ch ≤ 'Z'

/-- `tolower` of `ctype.h` on ASCII. -/
def toLowerC (ch : Char) : Char :=
  if isUpperC ch then Char.ofNat (ch.toNat + 32) else ch

/-- `isspace` of `ctype.h` (the six standard whitespace characters), used by
`atoi`. -/
def isSpaceC (ch : Char) : Bool :=
  ch = ' ' ∨ ch = '\t' ∨ ch = '\n' ∨ ch = '\x0b' ∨ ch = '\x0c' ∨ ch = '\r'

/-- `charToPiece` from `fileio.c`. -/
def charToPiece (ch : Char) : Piece :=
  if ch = '.' ∨ ch = ' ' then emptyPiece
  else
    let color := if isUpperC ch then PieceColor.WHITE else PieceColor.BLACK
    let lower := toLowerC ch
    if lower = 'p' then ⟨PieceType.PAWN, color⟩
    else if lower = 'r' then ⟨PieceType.ROOK, color⟩
    else if lower = 'n' then ⟨PieceType.KNIGHT, color⟩
    else if lower = 'b' then ⟨PieceType.BISHOP, color⟩
    else if lower = 'q' then ⟨PieceType.QUEEN, color⟩
    else if lower = 'k' then ⟨PieceType.KING, color⟩
    else emptyPiece

/-- `algebraicToPos` from `fileio.c`: the argument must have length exactly 2
(`strlen(s) != 2` fails), the file letter in `a..h` and the rank digit in
`1..8`; otherwise `(-1,-1)`. -/
def algebraicToPos (s : List Char) : Position :=
  if s.length ≠ 2 then nullPos
  else
    let file := s.getD 0 (Char.ofNat 0)
    let rank := s.getD 1 (Char.ofNat 0)
    if file < 'a' ∨ 'h' < file then nullPos
    else if rank < '1' ∨ '8' < rank then nullPos
    else ⟨8 - ((rank.toNat : Int) - ('0'.toNat : Int)), (file.toNat : Int) - ('a'.toNat : Int)⟩

/-- The digit-accumulation loop of `atoi`. -/
def digitsVal (acc : Int) : List Char → Int
  | [] => acc
  | ch :: rest =>
    if '0' ≤ ch ∧ ch ≤ '9' then
      digitsVal (acc * 10 + ((ch.toNat : Int) - ('0'.toNat : Int))) rest
    else acc

/-- `atoi` of `stdlib.h`: skip whitespace, optional sign, then digits. -/
def atoiModel (s : List Char) : Int :=
  match s.dropWhile isSpaceC with
  | '-' :: rest => -(digitsVal 0 rest)
  | '+' :: rest => digitsVal 0 rest
  | rest => digitsVal 0 rest

/-- One `fgets(line, 64, f)` call on a character stream: `none` at end of
file, otherwise the characters up to and including the first newline (or up
to 63 characters), plus the remaining stream.  C strings end at a NUL, which
board files do not contain. -/
def takeLine : Nat → List Char → List Char
  | 0, _ => []
  | _, [] => []
  | k + 1, ch :: rest => if ch = '\n' then [ch] else ch :: takeLine k rest

def fgetsModel (cs : List Char) : Option (List Char × List Char) :=
  match cs with
  | [] => none
  | _ =>
    let line := takeLine 63 cs
    some (line, cs.drop line.length)

/-- The first loop of `loadBoardFromFile`: read `n` board rows, failing if a
read fails or a row has fewer than 8 characters. -/
def readRows : Nat → List Char → Option (List (List Char) × List Char)
  | 0, cs => some ([], cs)
  | n + 1, cs => do
    let (line, rest) ← fgetsModel cs
    if line.length < 8 then none
    else do
      let (moreRows, rest2) ← readRows n rest
      some (line :: moreRows, rest2)

/-- The castling-rights loop of `loadBoardFromFile`: scan the line up to the
newline and set a flag for each of `K`, `Q`, `k`, `q`. -/
def castlingOfLine (line : List Char) : CastlingRights :=
  (line.takeWhile (fun ch => ch ≠ '\n')).foldl
    (fun cr ch =>
      if ch = 'K' then { cr with wk := true }
      else if ch = 'Q' then { cr with wq := true }
      else if ch = 'k' then { cr with bk := true }
      else if ch = 'q' then { cr with bq := true }
      else cr)
    ⟨false, false, false, false⟩

/-- The board-row contents as a square function; row `r`, column `c` holds
`charToPiece(line[c])`. -/
def squaresOfRows (rows : List (List Char)) : Fin 8 → Fin 8 → Piece :=
  fun r c => charToPiece ((rows.getD r.val []).getD c.val '.')

/-- `loadBoardFromFile` from `fileio.c`, on the file's character contents
(the `FILE*` handle is replaced by the stream of characters `fgets` would
deliver).  Returns `none` exactly when the C function returns `false` after
opening the file. -/
def loadBoardFromContents (cs : List Char) : Option BoardState := do
  let (rows, cs1) ← readRows 8 cs
  let (playerLine, cs2) ← fgetsModel cs1
  let (castleLine, cs3) ← fgetsModel cs2
  let (epLine, cs4) ← fgetsModel cs3
  let (halfLine, cs5) ← fgetsModel cs4
  let (fullLine, _) ← fgetsModel cs5
  some
    { squares := squaresOfRows rows
      currentPlayer :=
        if playerLine.getD 0 (Char.ofNat 0) = 'w' then PieceColor.WHITE
        else PieceColor.BLACK
      castling := castlingOfLine castleLine
      enPassantTarget :=
        if epLine.getD 0 (Char.ofNat 0) = '-' then nullPos
        else algebraicToPos epLine
      halfmoveClock := atoiModel halfLine
      fullmoveNumber := atoiModel fullLine }

/-- `parseMove` from `main.c`.  For inputs shorter than 4 characters the C
function returns with only `from.row = -1`, `flag` and `promotion` set; the
uninitialized fields are modelled as `-1`. -/
def parseMove (s : String) : Move :=
  let cs := s.data
  if cs.length < 4 then
    ⟨⟨-1, -1⟩, ⟨-1, -1⟩, PieceType.EMPTY, MoveFlag.NORMAL⟩
  else
    let fromC : Int := ((cs.getD 0 (Char.ofNat 0)).toNat : Int) - ('a'.toNat : Int)
    let fromR : Int := 8 - (((cs.getD 1 (Char.ofNat 0)).toNat : Int) - ('0'.toNat : Int))
    let toC : Int := ((cs.getD 2 (Char.ofNat 0)).toNat : Int) - ('a'.toNat : Int)
    let toR : Int := 8 - (((cs.getD 3 (Char.ofNat 0)).toNat : Int) - ('0'.toNat : Int))
    if cs.length = 5 then
      let p5 := toLowerC (cs.getD 4 (Char.ofNat 0))
      let promo :=
        if p5 = 'q' then PieceType.QUEEN
        else if p5 = 'r' then PieceType.ROOK
        else if p5 = 'b' then PieceType.BISHOP
        else if p5 = 'n' then PieceType.KNIGHT
        else PieceType.EMPTY
      ⟨⟨fromR, fromC⟩, ⟨toR, toC⟩, promo, MoveFlag.PROMOTION⟩
    else
      ⟨⟨fromR, fromC⟩, ⟨toR, toC⟩, PieceType.EMPTY, MoveFlag.NORMAL⟩

/-- The scan loop of `resolveMove` in `main.c` over the legal-move list:
first coordinate match, where a promotion-flagged candidate is accepted only
if the user requested its promotion piece (5-character input) or it is the
Queen promotion (4-character input). -/
def resolveScan (inputMove : Move) : List Move → Option Move
  | [] => none
  | m :: ms =>
    if m.fromSq.row = inputMove.fromSq.row ∧ m.fromSq.col = inputMove.fromSq.col ∧
        m.toSq.row = inputMove.toSq.row ∧ m.toSq.col = inputMove.toSq.col then
      if m.flag = MoveFlag.PROMOTION then
        if inputMove.flag = MoveFlag.PROMOTION then
          if m.promotion = inputMove.promotion then some m else resolveScan inputMove ms
        else if m.promotion = PieceType.QUEEN then some m
        else resolveScan inputMove ms
      else some m
    else resolveScan inputMove ms

/-- `resolveMove` from `main.c`; `some` is the C `true` return with the
resolved move. -/
def resolveMove (board : BoardState) (inputMove : Move) : Option Move :=
  resolveScan inputMove (generateAllLegalMoves board)

/-- The coordinate test of `resolveMove`'s scan loop: candidate and input
agree on both endpoints (flags and promotion piece are not compared). -/
def coordMatch (m inputMove : Move) : Prop :=
  m.fromSq.row = inputMove.fromSq.row ∧ m.fromSq.col = inputMove.fromSq.col ∧
  m.toSq.row = inputMove.toSq.row ∧ m.toSq.col = inputMove.toSq.col

instance (m inputMove : Move) : Decidable (coordMatch m inputMove) := by
  unfold coordMatch; infer_instance

/-- Two square arrays that agree everywhere except possibly on squares where
both hold a non-empty, non-king piece of color `col`.  The post-move boards
of two promotion variants of the same pawn move are related this way, with
`col` the mover's color. -/
def simExcept (s1 s2 : Fin 8 → Fin 8 → Piece) (col : PieceColor) : Prop :=
  ∀ r c : Int, getSq s1 r c = getSq s2 r c ∨
    ((getSq s1 r c).type ≠ PieceType.EMPTY ∧ (getSq s2 r c).type ≠ PieceType.EMPTY ∧
     (getSq s1 r c).type ≠ PieceType.KING ∧ (getSq s2 r c).type ≠ PieceType.KING ∧
     (getSq s1 r c).color = col ∧ (getSq s2 r c).color = col)

/-- The default starting rows of `main.c` (used when `board.txt` is
missing). -/
def startRows : List String :=
  ["rnbqkbnr", "pppppppp", "........", "........",
   "........", "........", "PPPPPPPP", "RNBQKBNR"]

/-- A board built from eight row strings via `charToPiece`, as `main.c`
does. -/
def boardOfStrings (rows : List String) : Fin 8 → Fin 8 → Piece :=
  fun r c => charToPiece ((rows.getD r.val "").data.getD c.val '.')

/-- The default initial position set up in `main.c`: standard start, White
to move, all castling rights, null en passant, clocks 0 and 1. -/
def initialBoard : BoardState :=
  ⟨boardOfStrings startRows, PieceColor.WHITE, ⟨true, true, true, true⟩,
   nullPos, 0, 1⟩

/-! ### Position invariants (§3 of the specification) and derived notions -/

/-- The `Piece` invariant of §3: `kind = Empty ⇔ color = None`, in the
direction the proofs use (an empty-typed square is the empty piece). -/
def piecesWF (b : BoardState) : Prop :=
  ∀ r c : Fin 8, (b.squares r c).type = PieceType.EMPTY → b.squares r c = emptyPiece

/-- The en-passant invariant of §3: the target is null, or an on-board
square on rank 3 or rank 6 (rows 5 and 2) that was just skipped by a double
push and is therefore empty. -/
def epOK (b : BoardState) : Prop :=
  b.enPassantTarget.row = -1 ∨
    (onBoard b.enPassantTarget.row b.enPassantTarget.col ∧
     (b.enPassantTarget.row = 2 ∨ b.enPassantTarget.row = 5) ∧
     getSq b.squares b.enPassantTarget.row b.enPassantTarget.col = emptyPiece)

/-- The castling-rights invariant of §3, in the part the proofs use: a set
right implies the matching king on its home square. -/
def castleOK (b : BoardState) : Prop :=
  ((b.castling.wk = true ∨ b.castling.wq = true) →
    getSq b.squares 7 4 = ⟨PieceType.KING, PieceColor.WHITE⟩) ∧
  ((b.castling.bk = true ∨ b.castling.bq = true) →
    getSq b.squares 0 4 = ⟨PieceType.KING, PieceColor.BLACK⟩)

/-- The Position invariants of §3 used below. -/
def posOK (b : BoardState) : Prop := piecesWF b ∧ epOK b ∧ castleOK b

instance (b : BoardState) : Decidable (piecesWF b) := by
  unfold piecesWF; infer_instance

instance (b : BoardState) : Decidable (epOK b) := by
  unfold epOK; infer_instance

instance (b : BoardState) : Decidable (castleOK b) := by
  unfold castleOK; infer_instance

instance (b : BoardState) : Decidable (posOK b) := by
  unfold posOK; infer_instance

/-- Structural facts about every move emitted by
`generatePseudoLegalMoves`, read off the generators: both squares are on the
board; except for en passant the destination never holds a piece of the side
to move (the `addMove` guard); and per-flag shape facts. -/
def MSound (b : BoardState) (m : Move) : Prop :=
  onBoard m.fromSq.row m.fromSq.col ∧
  onBoard m.toSq.row m.toSq.col ∧
  (m.flag ≠ MoveFlag.EN_PASSANT →
    (getSq b.squares m.toSq.row m.toSq.col).color ≠ b.currentPlayer) ∧
  (match m.flag with
   | MoveFlag.NORMAL =>
       (getSq b.squares m.fromSq.row m.fromSq.col).type = PieceType.PAWN →
         (getSq b.squares m.fromSq.row m.fromSq.col).color = b.currentPlayer ∧
         m.toSq.row ≠ promotionRankOf b.currentPlayer
   | MoveFlag.PROMOTION =>
       getSq b.squares m.fromSq.row m.fromSq.col =
         ⟨PieceType.PAWN, b.currentPlayer⟩ ∧
       m.toSq.row = promotionRankOf b.currentPlayer ∧
       m.fromSq.row = m.toSq.row - dirOf b.currentPlayer ∧
       m.promotion ∈ [PieceType.QUEEN, PieceType.ROOK, PieceType.BISHOP, PieceType.KNIGHT] ∧
       (∀ pr ∈ [PieceType.QUEEN, PieceType.ROOK, PieceType.BISHOP, PieceType.KNIGHT],
         Move.mk m.fromSq m.toSq pr MoveFlag.PROMOTION ∈ generatePseudoLegalMoves b)
   | MoveFlag.EN_PASSANT =>
       m.toSq = b.enPassantTarget ∧
       getSq b.squares m.fromSq.row m.fromSq.col =
         ⟨PieceType.PAWN, b.currentPlayer⟩ ∧
       m.fromSq.row = m.toSq.row - dirOf b.currentPlayer ∧
       m.fromSq.col ≠ m.toSq.col
   | MoveFlag.CASTLE_KING =>
       (b.currentPlayer = PieceColor.WHITE ∧ b.castling.wk = true ∧
        m.fromSq = ⟨7, 4⟩ ∧ m.toSq = ⟨7, 6⟩ ∧
        (getSq b.squares 7 5).type = PieceType.EMPTY ∧
        (getSq b.squares 7 6).type = PieceType.EMPTY) ∨
       (b.currentPlayer ≠ PieceColor.WHITE ∧ b.castling.bk = true ∧
        m.fromSq = ⟨0, 4⟩ ∧ m.toSq = ⟨0, 6⟩ ∧
        (getSq b.squares 0 5).type = PieceType.EMPTY ∧
        (getSq b.squares 0 6).type = PieceType.EMPTY)
   | MoveFlag.CASTLE_QUEEN =>
       (b.currentPlayer = PieceColor.WHITE ∧ b.castling.wq = true ∧
        m.fromSq = ⟨7, 4⟩ ∧ m.toSq = ⟨7, 2⟩ ∧
        (getSq b.squares 7 1).type = PieceType.EMPTY ∧
        (getSq b.squares 7 2).type = PieceType.EMPTY ∧
        (getSq b.squares 7 3).type = PieceType.EMPTY) ∨
       (b.currentPlayer ≠ PieceColor.WHITE ∧ b.castling.bq = true ∧
        m.fromSq = ⟨0, 4⟩ ∧ m.toSq = ⟨0, 2⟩ ∧
        (getSq b.squares 0 1).type = PieceType.EMPTY ∧
        (getSq b.squares 0 2).type = PieceType.EMPTY ∧
        (getSq b.squares 0 3).type = PieceType.EMPTY))

/-- Castling-rights inclusion: every set flag of `a` is set in `b`. -/
def crSubset (a b : CastlingRights) : Prop :=
  (a.wk = true → b.wk = true) ∧ (a.wq = true → b.wq = true) ∧
  (a.bk = true → b.bk = true) ∧ (a.bq = true → b.bq = true)

/-- A sequence of `makeMove` applications (no reverts). -/
def applyMoves (b : BoardState) : List Move → BoardState
  | [] => b
  | m :: ms => applyMoves (makeMove b m).1 ms

/-- The board squares read by `generatePawnMoves(board, list, r, c)`, with
the guards under which the C code reads them: the single-push read is
guarded by `r+dir ∈ [0,8)`, the double-push reads happen when `r` is the
start row, and the capture/en-passant branch reads `squares[r+dir][newC]`
for each column `newC ∈ {c-1, c+1} ∩ [0,8)` with no row bound of its own. -/
def pawnGenReads (b : BoardState) (r c : Int) : List (Int × Int) :=
  let dir := dirOf b.currentPlayer
  (if 0 ≤ r + dir ∧ r + dir < 8 then [(r + dir, c)] else []) ++
  (if r = startRowOf b.currentPlayer then [(r + dir, c), (r + 2 * dir, c)] else []) ++
  ([c - 1, c + 1].flatMap fun newC =>
    if 0 ≤ newC ∧ newC < 8 then [(r + dir, newC)] else [])

/-! ### Concrete positions and moves used by witnesses, counterexamples and
the seed-test claim -/

/-- The move `e2e4`, i.e. `(6,4)→(4,4)` Normal. -/
def e2e4Move : Move := ⟨⟨6, 4⟩, ⟨4, 4⟩, PieceType.EMPTY, MoveFlag.NORMAL⟩

/-- The quiet single pawn push `e2e3`, i.e. `(6,4)→(5,4)` Normal. -/
def e2e3Move : Move := ⟨⟨6, 4⟩, ⟨5, 4⟩, PieceType.EMPTY, MoveFlag.NORMAL⟩

/-- A board holding a single White pawn on `(3,4)`. -/
def pawnAttackBoard : BoardState :=
  ⟨boardOfStrings
      ["........", "........", "........", "....P...",
       "........", "........", "........", "........"],
   PieceColor.WHITE, ⟨false, false, false, false⟩, nullPos, 0, 1⟩

/-- White to move; White pawn on `(3,3)`, Black king on `(2,4)`, White king
on `(7,4)`.  The engine's own oracle reports neither king in check here. -/
def kingCaptureBoard : BoardState :=
  ⟨boardOfStrings
      ["........", "........", "....k...", "...P....",
       "........", "........", "........", "....K..."],
   PieceColor.WHITE, ⟨false, false, false, false⟩, nullPos, 0, 1⟩

/-- The pawn move `(3,3)→(2,4)` onto the Black king. -/
def kingCaptureMove : Move := ⟨⟨3, 3⟩, ⟨2, 4⟩, PieceType.EMPTY, MoveFlag.NORMAL⟩

/-- Scenario 4 of §8: White pawn on `(1,0)`, kings on `(7,4)` and `(0,4)`,
White to move. -/
def promoBoard : BoardState :=
  ⟨boardOfStrings
      ["....k...", "P.......", "........", "........",
       "........", "........", "........", "....K..."],
   PieceColor.WHITE, ⟨false, false, false, false⟩, nullPos, 0, 1⟩

/-- Well-formed board-file contents whose eleventh line is `e3`: the
position after `1.e4` as `saveBoardToFile` would write it. -/
def fileAfterE4 : List Char :=
  ("rnbqkbnr\npppppppp\n........\n........\n....P...\n........\nPPPP.PPP\nRNBQKBNR\nb\nKQkq\ne3\n0\n1\n").data

/-! ## Theorems

First the board-access infrastructure, then the generation-soundness lemma,
the make/undo analysis, and finally one theorem per claim (with witnesses
and counterexamples). -/

theorem getSq_setSq (sq : Fin 8 → Fin 8 → Piece) (r c : Int) (p : Piece)
    (r' c' : Int) :
    getSq (setSq sq r c p) r' c' =
      if onBoard r' c' ∧ r' = r ∧ c' = c then p else getSq sq r' c' := by
  by_cases h : onBoard r' c'
  · obtain ⟨h1, h2, h3, h4⟩ := h
    have h : onBoard r' c' := ⟨h1, h2, h3, h4⟩
    by_cases hrc : r' = r ∧ c' = c
    · rw [if_pos ⟨h, hrc⟩]
      unfold getSq setSq
      rw [dif_pos h]
      obtain ⟨hr, hc⟩ := hrc
      have er : ((r'.toNat : Int)) = r := by omega
      have ec : ((c'.toNat : Int)) = c := by omega
      exact if_pos ⟨er, ec⟩
    · rw [if_neg (by tauto : ¬(onBoard r' c' ∧ r' = r ∧ c' = c))]
      unfold getSq setSq
      rw [dif_pos h, dif_pos h]
      refine if_neg ?_
      intro hcon
      apply hrc
      have hcon1 : ((r'.toNat : Int)) = r := hcon.1
      have hcon2 : ((c'.toNat : Int)) = c := hcon.2
      constructor <;> omega
  · rw [if_neg (fun hcon => h hcon.1)]
    unfold getSq
    rw [dif_neg h, dif_neg h]

theorem getSq_fin (sq : Fin 8 → Fin 8 → Piece) (i j : Fin 8) :
    getSq sq (i : Int) (j : Int) = sq i j := by
  have h : onBoard (i : Int) (j : Int) :=
    ⟨Int.ofNat_nonneg _, by exact_mod_cast i.isLt,
     Int.ofNat_nonneg _, by exact_mod_cast j.isLt⟩
  unfold getSq
  rw [dif_pos h]
  have ei : ((i : Int).toNat) = i.val := by omega
  have ej : ((j : Int).toNat) = j.val := by omega
  simp only [ei, ej, Fin.eta]

theorem squares_ext {s1 s2 : Fin 8 → Fin 8 → Piece}
    (h : ∀ r c : Int, onBoard r c → getSq s1 r c = getSq s2 r c) :
    s1 = s2 := by
  funext i j
  have := h (i : Int) (j : Int) (by unfold onBoard; omega)
  rwa [getSq_fin, getSq_fin] at this

theorem BoardState_ext {a b : BoardState}
    (h1 : a.squares = b.squares) (h2 : a.currentPlayer = b.currentPlayer)
    (h3 : a.castling = b.castling) (h4 : a.enPassantTarget = b.enPassantTarget)
    (h5 : a.halfmoveClock = b.halfmoveClock)
    (h6 : a.fullmoveNumber = b.fullmoveNumber) : a = b := by
  cases a; cases b
  simp_all

theorem piecesWF_getSq {b : BoardState} (hwf : piecesWF b) (r c : Int)
    (h : (getSq b.squares r c).type = PieceType.EMPTY) :
    getSq b.squares r c = emptyPiece := by
  by_cases hb : onBoard r c
  · unfold getSq at h ⊢
    rw [dif_pos hb] at h ⊢
    exact hwf _ _ h
  · unfold getSq at h ⊢
    rw [dif_neg hb] at h ⊢

/-! ### Soundness of pseudo-legal move generation -/

theorem mem_addMove {b : BoardState} {mv m : Move} (h : m ∈ addMove b mv) :
    m = mv ∧ onBoard mv.toSq.row mv.toSq.col ∧
      (mv.flag ≠ MoveFlag.EN_PASSANT →
        (getSq b.squares mv.toSq.row mv.toSq.col).color ≠ b.currentPlayer) := by
  unfold addMove at h
  by_cases h1 : ¬ onBoard mv.toSq.row mv.toSq.col
  · rw [if_pos h1] at h
    simp at h
  · rw [if_neg h1] at h
    by_cases h2 : mv.flag ≠ MoveFlag.EN_PASSANT ∧
        (getSq b.squares mv.toSq.row mv.toSq.col).color = b.currentPlayer
    · rw [if_pos h2] at h
      simp at h
    · rw [if_neg h2] at h
      have hm : m = mv := by simpa using h
      exact ⟨hm, not_not.mp h1, fun hne hcol => h2 ⟨hne, hcol⟩⟩

theorem self_mem_addMove {b : BoardState} {mv : Move}
    (h1 : onBoard mv.toSq.row mv.toSq.col)
    (h2 : mv.flag ≠ MoveFlag.EN_PASSANT →
      (getSq b.squares mv.toSq.row mv.toSq.col).color ≠ b.currentPlayer) :
    mv ∈ addMove b mv := by
  unfold addMove
  rw [if_neg (not_not_intro h1), if_neg (fun hc => h2 hc.1 hc.2)]
  exact List.mem_singleton.mpr rfl

/-- Every move emitted by `generatePawnMoves` starts at `(r,c)`, lands on
the board off a square of the mover's color (except en passant), and has
one of three shapes: a Normal move off the promotion rank, a Promotion move
onto the promotion rank produced in a block that also contains the Queen,
Rook, Bishop and Knight versions, or an en-passant capture onto the
en-passant target square from an adjacent column. -/
theorem mem_generatePawnMoves {b : BoardState} {r c : Int} {m : Move}
    (hm : m ∈ generatePawnMoves b r c) :
    m.fromSq = ⟨r, c⟩ ∧ onBoard m.toSq.row m.toSq.col ∧
    (m.flag ≠ MoveFlag.EN_PASSANT →
      (getSq b.squares m.toSq.row m.toSq.col).color ≠ b.currentPlayer) ∧
    ((m.flag = MoveFlag.NORMAL ∧ m.toSq.row ≠ promotionRankOf b.currentPlayer) ∨
     (m.flag = MoveFlag.PROMOTION ∧
       m.toSq.row = promotionRankOf b.currentPlayer ∧
       m.fromSq.row = m.toSq.row - dirOf b.currentPlayer ∧
       m.promotion ∈ [PieceType.QUEEN, PieceType.ROOK, PieceType.BISHOP,
         PieceType.KNIGHT] ∧
       (∀ pr ∈ [PieceType.QUEEN, PieceType.ROOK, PieceType.BISHOP,
          PieceType.KNIGHT],
          Move.mk m.fromSq m.toSq pr MoveFlag.PROMOTION ∈ generatePawnMoves b r c)) ∨
     (m.flag = MoveFlag.EN_PASSANT ∧ m.toSq = b.enPassantTarget ∧
       m.fromSq.row = m.toSq.row - dirOf b.currentPlayer ∧
       m.fromSq.col ≠ m.toSq.col)) := by
  have hsd : startRowOf b.currentPlayer + dirOf b.currentPlayer ≠
      promotionRankOf b.currentPlayer ∧
      startRowOf b.currentPlayer + 2 * dirOf b.currentPlayer ≠
        promotionRankOf b.currentPlayer := by
    unfold startRowOf dirOf promotionRankOf
    split_ifs <;> simp
  unfold generatePawnMoves at hm
  simp only [List.mem_append] at hm
  rcases hm with (hPush | hDbl) | hCap
  · -- single push
    by_cases hc : 0 ≤ r + dirOf b.currentPlayer ∧ r + dirOf b.currentPlayer < 8 ∧
        (getSq b.squares (r + dirOf b.currentPlayer) c).type = PieceType.EMPTY
    swap
    · rw [if_neg hc] at hPush
      exact absurd hPush (List.not_mem_nil m)
    rw [if_pos hc] at hPush
    by_cases hp : r + dirOf b.currentPlayer = promotionRankOf b.currentPlayer
    · rw [if_pos hp] at hPush
      simp only [List.mem_append] at hPush
      have hvar : ∀ pr ∈ [PieceType.QUEEN, PieceType.ROOK, PieceType.BISHOP,
          PieceType.KNIGHT],
          (Move.mk ⟨r, c⟩ ⟨r + dirOf b.currentPlayer, c⟩ pr MoveFlag.PROMOTION) ∈
            generatePawnMoves b r c := by
        -- every member of the block passed the same addMove guard
        have hguard : onBoard (r + dirOf b.currentPlayer) c ∧
            (getSq b.squares (r + dirOf b.currentPlayer) c).color ≠
              b.currentPlayer := by
          rcases hPush with ((h1 | h1) | h1) | h1 <;>
            { have := mem_addMove h1
              exact ⟨this.2.1, this.2.2 (by simp)⟩ }
        intro pr hpr
        have hself : (Move.mk ⟨r, c⟩ ⟨r + dirOf b.currentPlayer, c⟩ pr
            MoveFlag.PROMOTION) ∈ addMove b (Move.mk ⟨r, c⟩
              ⟨r + dirOf b.currentPlayer, c⟩ pr MoveFlag.PROMOTION) :=
          self_mem_addMove hguard.1 (fun _ => hguard.2)
        unfold generatePawnMoves
        simp only [List.mem_append]
        left; left
        rw [if_pos hc, if_pos hp]
        simp only [List.mem_append]
        fin_cases hpr
        · exact Or.inl (Or.inl (Or.inl hself))
        · exact Or.inl (Or.inl (Or.inr hself))
        · exact Or.inl (Or.inr hself)
        · exact Or.inr hself
      rcases hPush with ((h1 | h1) | h1) | h1 <;>
        { obtain ⟨hm1, hob, hgd⟩ := mem_addMove h1
          subst hm1
          refine ⟨rfl, hob, hgd, Or.inr (Or.inl ⟨rfl, ?_, ?_, ?_, ?_⟩)⟩
          · simpa using hp
          · simp only []
            ring
          · simp
          · simpa using hvar }
    · rw [if_neg hp] at hPush
      obtain ⟨hm1, hob, hgd⟩ := mem_addMove hPush
      subst hm1
      exact ⟨rfl, hob, hgd, Or.inl ⟨rfl, by simpa using hp⟩⟩
  · -- double push
    by_cases hc : r = startRowOf b.currentPlayer ∧
        (getSq b.squares (r + dirOf b.currentPlayer) c).type = PieceType.EMPTY ∧
        (getSq b.squares (r + 2 * dirOf b.currentPlayer) c).type = PieceType.EMPTY
    swap
    · rw [if_neg hc] at hDbl
      exact absurd hDbl (List.not_mem_nil m)
    rw [if_pos hc] at hDbl
    obtain ⟨hm1, hob, hgd⟩ := mem_addMove hDbl
    subst hm1
    refine ⟨rfl, hob, hgd, Or.inl ⟨rfl, ?_⟩⟩
    have := hsd.2
    simp only []
    rw [hc.1]
    exact this
  · -- captures and en passant
    rcases List.mem_flatMap.mp hCap with ⟨newC, hnewC, hInner⟩
    have hcadj : newC = c - 1 ∨ newC = c + 1 := by simpa using hnewC
    by_cases hbnd : 0 ≤ newC ∧ newC < 8
    swap
    · rw [if_neg hbnd] at hInner
      exact absurd hInner (List.not_mem_nil m)
    rw [if_pos hbnd] at hInner
    simp only [List.mem_append] at hInner
    rcases hInner with hNorm | hEp
    · -- ordinary capture
      by_cases hcap : (getSq b.squares (r + dirOf b.currentPlayer) newC).type ≠
          PieceType.EMPTY ∧
          (getSq b.squares (r + dirOf b.currentPlayer) newC).color ≠ b.currentPlayer
      swap
      · rw [if_neg hcap] at hNorm
        exact absurd hNorm (List.not_mem_nil m)
      rw [if_pos hcap] at hNorm
      by_cases hp : r + dirOf b.currentPlayer = promotionRankOf b.currentPlayer
      · rw [if_pos hp] at hNorm
        simp only [List.mem_append] at hNorm
        have hguard : onBoard (r + dirOf b.currentPlayer) newC ∧
            (getSq b.squares (r + dirOf b.currentPlayer) newC).color ≠
              b.currentPlayer := by
          rcases hNorm with ((h1 | h1) | h1) | h1 <;>
            { have := mem_addMove h1
              exact ⟨this.2.1, this.2.2 (by simp)⟩ }
        have hvar : ∀ pr ∈ [PieceType.QUEEN, PieceType.ROOK, PieceType.BISHOP,
            PieceType.KNIGHT],
            (Move.mk ⟨r, c⟩ ⟨r + dirOf b.currentPlayer, newC⟩ pr
              MoveFlag.PROMOTION) ∈ generatePawnMoves b r c := by
          intro pr hpr
          have hself : (Move.mk ⟨r, c⟩ ⟨r + dirOf b.currentPlayer, newC⟩ pr
              MoveFlag.PROMOTION) ∈ addMove b (Move.mk ⟨r, c⟩
                ⟨r + dirOf b.currentPlayer, newC⟩ pr MoveFlag.PROMOTION) :=
            self_mem_addMove hguard.1 (fun _ => hguard.2)
          unfold generatePawnMoves
          simp only [List.mem_append]
          right
          refine List.mem_flatMap.mpr ⟨newC, hnewC, ?_⟩
          rw [if_pos hbnd]
          simp only [List.mem_append]
          left
          rw [if_pos hcap, if_pos hp]
          simp only [List.mem_append]
          fin_cases hpr
          · exact Or.inl (Or.inl (Or.inl hself))
          · exact Or.inl (Or.inl (Or.inr hself))
          · exact Or.inl (Or.inr hself)
          · exact Or.inr hself
        rcases hNorm with ((h1 | h1) | h1) | h1 <;>
          { obtain ⟨hm1, hob, hgd⟩ := mem_addMove h1
            subst hm1
            refine ⟨rfl, hob, hgd, Or.inr (Or.inl ⟨rfl, ?_, ?_, ?_, ?_⟩)⟩
            · simpa using hp
            · simp only []
              ring
            · simp
            · simpa using hvar }
      · rw [if_neg hp] at hNorm
        obtain ⟨hm1, hob, hgd⟩ := mem_addMove hNorm
        subst hm1
        exact ⟨rfl, hob, hgd, Or.inl ⟨rfl, by simpa using hp⟩⟩
    · -- en passant
      by_cases hept : r + dirOf b.currentPlayer = b.enPassantTarget.row ∧
          newC = b.enPassantTarget.col
      swap
      · rw [if_neg hept] at hEp
        exact absurd hEp (List.not_mem_nil m)
      rw [if_pos hept] at hEp
      obtain ⟨hm1, hob, hgd⟩ := mem_addMove hEp
      subst hm1
      refine ⟨rfl, hob, hgd, Or.inr (Or.inr ⟨rfl, ?_, ?_, ?_⟩)⟩
      · show (⟨r + dirOf b.currentPlayer, newC⟩ : Position) = b.enPassantTarget
        rw [hept.1, hept.2]
      · simp only []
        ring
      · simp only []
        omega

theorem mem_slideRay {b : BoardState} {fR fC : Int} {m : Move} :
    ∀ {r c dR dC : Int} {fuel : Nat}, m ∈ slideRay b fR fC r c dR dC fuel →
    m.fromSq = ⟨fR, fC⟩ ∧ m.flag = MoveFlag.NORMAL ∧
    onBoard m.toSq.row m.toSq.col ∧
    (getSq b.squares m.toSq.row m.toSq.col).color ≠ b.currentPlayer := by
  intro r c dR dC fuel
  induction fuel generalizing r c with
  | zero => intro h; exact absurd h (List.not_mem_nil m)
  | succ fuel ih =>
    intro h
    unfold slideRay at h
    by_cases hob : ¬ onBoard (r + dR) (c + dC)
    · rw [if_pos hob] at h
      exact absurd h (List.not_mem_nil m)
    rw [if_neg hob] at h
    by_cases hem : (getSq b.squares (r + dR) (c + dC)).type = PieceType.EMPTY
    · rw [if_pos hem] at h
      rcases List.mem_append.mp h with h1 | h1
      · obtain ⟨hm1, hob2, hgd⟩ := mem_addMove h1
        subst hm1
        exact ⟨rfl, rfl, hob2, hgd (by simp)⟩
      · exact ih h1
    · rw [if_neg hem] at h
      by_cases hcol : (getSq b.squares (r + dR) (c + dC)).color ≠ b.currentPlayer
      · rw [if_pos hcol] at h
        obtain ⟨hm1, hob2, hgd⟩ := mem_addMove h
        subst hm1
        exact ⟨rfl, rfl, hob2, hgd (by simp)⟩
      · rw [if_neg hcol] at h
        exact absurd h (List.not_mem_nil m)

theorem mem_generateSlidingMoves {b : BoardState} {r c : Int} {m : Move}
    (hm : m ∈ generateSlidingMoves b r c) :
    m.fromSq = ⟨r, c⟩ ∧ m.flag = MoveFlag.NORMAL ∧
    onBoard m.toSq.row m.toSq.col ∧
    (getSq b.squares m.toSq.row m.toSq.col).color ≠ b.currentPlayer := by
  unfold generateSlidingMoves at hm
  simp only [] at hm
  rcases List.mem_flatMap.mp hm with ⟨d, _, hray⟩
  exact mem_slideRay hray

theorem mem_generateKnightMoves {b : BoardState} {r c : Int} {m : Move}
    (hm : m ∈ generateKnightMoves b r c) :
    m.fromSq = ⟨r, c⟩ ∧ m.flag = MoveFlag.NORMAL ∧
    onBoard m.toSq.row m.toSq.col ∧
    (getSq b.squares m.toSq.row m.toSq.col).color ≠ b.currentPlayer := by
  unfold generateKnightMoves at hm
  rcases List.mem_flatMap.mp hm with ⟨d, _, hadd⟩
  obtain ⟨hm1, hob, hgd⟩ := mem_addMove hadd
  subst hm1
  exact ⟨rfl, rfl, hob, hgd (by simp)⟩

/-- Every move emitted by `generateKingMoves` is a Normal move from `(r,c)`
or one of the four castle moves with the facts its generation conditions
establish. -/
theorem mem_generateKingMoves {b : BoardState} {r c : Int} {m : Move}
    (hm : m ∈ generateKingMoves b r c) :
    (m.fromSq = ⟨r, c⟩ ∧ m.flag = MoveFlag.NORMAL ∧
     onBoard m.toSq.row m.toSq.col ∧
     (getSq b.squares m.toSq.row m.toSq.col).color ≠ b.currentPlayer) ∨
    (onBoard m.toSq.row m.toSq.col ∧
     (getSq b.squares m.toSq.row m.toSq.col).color ≠ b.currentPlayer ∧
     ((m.flag = MoveFlag.CASTLE_KING ∧
       ((b.currentPlayer = PieceColor.WHITE ∧ b.castling.wk = true ∧
         m.fromSq = ⟨7, 4⟩ ∧ m.toSq = ⟨7, 6⟩ ∧
         (getSq b.squares 7 5).type = PieceType.EMPTY ∧
         (getSq b.squares 7 6).type = PieceType.EMPTY) ∨
        (b.currentPlayer ≠ PieceColor.WHITE ∧ b.castling.bk = true ∧
         m.fromSq = ⟨0, 4⟩ ∧ m.toSq = ⟨0, 6⟩ ∧
         (getSq b.squares 0 5).type = PieceType.EMPTY ∧
         (getSq b.squares 0 6).type = PieceType.EMPTY))) ∨
      (m.flag = MoveFlag.CASTLE_QUEEN ∧
       ((b.currentPlayer = PieceColor.WHITE ∧ b.castling.wq = true ∧
         m.fromSq = ⟨7, 4⟩ ∧ m.toSq = ⟨7, 2⟩ ∧
         (getSq b.squares 7 1).type = PieceType.EMPTY ∧
         (getSq b.squares 7 2).type = PieceType.EMPTY ∧
         (getSq b.squares 7 3).type = PieceType.EMPTY) ∨
        (b.currentPlayer ≠ PieceColor.WHITE ∧ b.castling.bq = true ∧
         m.fromSq = ⟨0, 4⟩ ∧ m.toSq = ⟨0, 2⟩ ∧
         (getSq b.squares 0 1).type = PieceType.EMPTY ∧
         (getSq b.squares 0 2).type = PieceType.EMPTY ∧
         (getSq b.squares 0 3).type = PieceType.EMPTY))))) := by
  unfold generateKingMoves at hm
  simp only [] at hm
  have hNormals :
      ∀ hx : m ∈ kingOffsets.flatMap fun d =>
        addMove b ⟨⟨r, c⟩, ⟨r + d.1, c + d.2⟩, PieceType.EMPTY, MoveFlag.NORMAL⟩,
      m.fromSq = ⟨r, c⟩ ∧ m.flag = MoveFlag.NORMAL ∧
      onBoard m.toSq.row m.toSq.col ∧
      (getSq b.squares m.toSq.row m.toSq.col).color ≠ b.currentPlayer := by
    intro hx
    rcases List.mem_flatMap.mp hx with ⟨d, _, hadd⟩
    obtain ⟨hm1, hob, hgd⟩ := mem_addMove hadd
    subst hm1
    exact ⟨rfl, rfl, hob, hgd (by simp)⟩
  by_cases hchk : isKingInCheck b b.currentPlayer = true
  · rw [if_pos hchk] at hm
    exact Or.inl (hNormals hm)
  · rw [if_neg hchk] at hm
    rcases List.mem_append.mp hm with hN | hC
    · exact Or.inl (hNormals hN)
    · right
      by_cases hw : b.currentPlayer = PieceColor.WHITE
      · rw [if_pos hw] at hC
        rcases List.mem_append.mp hC with hK | hQ
        · by_cases hcond : b.castling.wk = true ∧
              (getSq b.squares 7 5).type = PieceType.EMPTY ∧
              (getSq b.squares 7 6).type = PieceType.EMPTY ∧
              ¬ isSquareAttacked b 7 5 (if b.currentPlayer = PieceColor.WHITE
                then PieceColor.BLACK else PieceColor.WHITE) = true ∧
              ¬ isSquareAttacked b 7 6 (if b.currentPlayer = PieceColor.WHITE
                then PieceColor.BLACK else PieceColor.WHITE) = true
          swap
          · rw [if_neg hcond] at hK
            exact absurd hK (List.not_mem_nil m)
          rw [if_pos hcond] at hK
          obtain ⟨hm1, hob, hgd⟩ := mem_addMove hK
          subst hm1
          exact ⟨hob, hgd (by simp), Or.inl ⟨rfl,
            Or.inl ⟨hw, hcond.1, rfl, rfl, hcond.2.1, hcond.2.2.1⟩⟩⟩
        · by_cases hcond : b.castling.wq = true ∧
              (getSq b.squares 7 1).type = PieceType.EMPTY ∧
              (getSq b.squares 7 2).type = PieceType.EMPTY ∧
              (getSq b.squares 7 3).type = PieceType.EMPTY ∧
              ¬ isSquareAttacked b 7 2 (if b.currentPlayer = PieceColor.WHITE
                then PieceColor.BLACK else PieceColor.WHITE) = true ∧
              ¬ isSquareAttacked b 7 3 (if b.currentPlayer = PieceColor.WHITE
                then PieceColor.BLACK else PieceColor.WHITE) = true
          swap
          · rw [if_neg hcond] at hQ
            exact absurd hQ (List.not_mem_nil m)
          rw [if_pos hcond] at hQ
          obtain ⟨hm1, hob, hgd⟩ := mem_addMove hQ
          subst hm1
          exact ⟨hob, hgd (by simp), Or.inr ⟨rfl,
            Or.inl ⟨hw, hcond.1, rfl, rfl, hcond.2.1, hcond.2.2.1, hcond.2.2.2.1⟩⟩⟩
      · rw [if_neg hw] at hC
        rcases List.mem_append.mp hC with hK | hQ
        · by_cases hcond : b.castling.bk = true ∧
              (getSq b.squares 0 5).type = PieceType.EMPTY ∧
              (getSq b.squares 0 6).type = PieceType.EMPTY ∧
              ¬ isSquareAttacked b 0 5 (if b.currentPlayer = PieceColor.WHITE
                then PieceColor.BLACK else PieceColor.WHITE) = true ∧
              ¬ isSquareAttacked b 0 6 (if b.currentPlayer = PieceColor.WHITE
                then PieceColor.BLACK else PieceColor.WHITE) = true
          swap
          · rw [if_neg hcond] at hK
            exact absurd hK (List.not_mem_nil m)
          rw [if_pos hcond] at hK
          obtain ⟨hm1, hob, hgd⟩ := mem_addMove hK
          subst hm1
          exact ⟨hob, hgd (by simp), Or.inl ⟨rfl,
            Or.inr ⟨hw, hcond.1, rfl, rfl, hcond.2.1, hcond.2.2.1⟩⟩⟩
        · by_cases hcond : b.castling.bq = true ∧
              (getSq b.squares 0 1).type = PieceType.EMPTY ∧
              (getSq b.squares 0 2).type = PieceType.EMPTY ∧
              (getSq b.squares 0 3).type = PieceType.EMPTY ∧
              ¬ isSquareAttacked b 0 2 (if b.currentPlayer = PieceColor.WHITE
                then PieceColor.BLACK else PieceColor.WHITE) = true ∧
              ¬ isSquareAttacked b 0 3 (if b.currentPlayer = PieceColor.WHITE
                then PieceColor.BLACK else PieceColor.WHITE) = true
          swap
          · rw [if_neg hcond] at hQ
            exact absurd hQ (List.not_mem_nil m)
          rw [if_pos hcond] at hQ
          obtain ⟨hm1, hob, hgd⟩ := mem_addMove hQ
          subst hm1
          exact ⟨hob, hgd (by simp), Or.inr ⟨rfl,
            Or.inr ⟨hw, hcond.1, rfl, rfl, hcond.2.1, hcond.2.2.1, hcond.2.2.2.1⟩⟩⟩

/-- Soundness of the pseudo-legal generator: every emitted move satisfies
`MSound`. -/
theorem pseudo_sound {b : BoardState} {m : Move}
    (hm : m ∈ generatePseudoLegalMoves b) : MSound b m := by
  unfold generatePseudoLegalMoves at hm
  rcases List.mem_flatMap.mp hm with ⟨i, -, hm2⟩
  rcases List.mem_flatMap.mp hm2 with ⟨j, -, hbody⟩
  simp only [] at hbody
  by_cases hcol : (b.squares i j).color = b.currentPlayer
  swap
  · rw [if_neg hcol] at hbody
    exact absurd hbody (List.not_mem_nil m)
  rw [if_pos hcol] at hbody
  have hfin : getSq b.squares (i : Int) (j : Int) = b.squares i j := getSq_fin _ i j
  have hobi : onBoard (i : Int) (j : Int) :=
    ⟨Int.ofNat_nonneg _, by exact_mod_cast i.isLt,
     Int.ofNat_nonneg _, by exact_mod_cast j.isLt⟩
  unfold MSound
  cases htype : (b.squares i j).type with
  | EMPTY =>
    simp only [htype] at hbody
    exact absurd hbody (List.not_mem_nil m)
  | PAWN =>
    simp only [htype] at hbody
    have hp : getSq b.squares (i : Int) (j : Int) =
        ⟨PieceType.PAWN, b.currentPlayer⟩ := by
      rw [hfin]
      cases hbs : b.squares i j with
      | mk t pc =>
        rw [hbs] at htype hcol
        simp only [] at htype hcol
        rw [htype, hcol]
    obtain ⟨hfrom, hob, hgd, hshape⟩ := mem_generatePawnMoves hbody
    have hlift : ∀ x : Move, x ∈ generatePawnMoves b (i : Int) (j : Int) →
        x ∈ generatePseudoLegalMoves b := by
      intro x hx
      unfold generatePseudoLegalMoves
      refine List.mem_flatMap.mpr ⟨i, List.mem_finRange i, ?_⟩
      refine List.mem_flatMap.mpr ⟨j, List.mem_finRange j, ?_⟩
      simp only []
      rw [if_pos hcol]
      simp only [htype]
      exact hx
    refine ⟨by rw [hfrom]; exact hobi, hob, hgd, ?_⟩
    rcases hshape with ⟨hfl, hrow⟩ | ⟨hfl, hrow, hfr, hprm, hvar⟩ |
      ⟨hfl, hto, hfr, hcol2⟩
    · simp only [hfl]
      intro _
      rw [hfrom]
      exact ⟨by rw [hp], hrow⟩
    · simp only [hfl]
      exact ⟨by rw [hfrom]; exact hp, hrow, hfr, hprm,
        fun pr hpr => hlift _ (hvar pr hpr)⟩
    · simp only [hfl]
      exact ⟨hto, by rw [hfrom]; exact hp, hfr, hcol2⟩
  | KNIGHT =>
    simp only [htype] at hbody
    obtain ⟨hfrom, hfl, hob, hgd⟩ := mem_generateKnightMoves hbody
    refine ⟨by rw [hfrom]; exact hobi, hob, fun _ => hgd, ?_⟩
    simp only [hfl]
    intro hpawn
    rw [hfrom, hfin, htype] at hpawn
    simp at hpawn
  | BISHOP =>
    simp only [htype] at hbody
    obtain ⟨hfrom, hfl, hob, hgd⟩ := mem_generateSlidingMoves hbody
    refine ⟨by rw [hfrom]; exact hobi, hob, fun _ => hgd, ?_⟩
    simp only [hfl]
    intro hpawn
    rw [hfrom, hfin, htype] at hpawn
    simp at hpawn
  | ROOK =>
    simp only [htype] at hbody
    obtain ⟨hfrom, hfl, hob, hgd⟩ := mem_generateSlidingMoves hbody
    refine ⟨by rw [hfrom]; exact hobi, hob, fun _ => hgd, ?_⟩
    simp only [hfl]
    intro hpawn
    rw [hfrom, hfin, htype] at hpawn
    simp at hpawn
  | QUEEN =>
    simp only [htype] at hbody
    obtain ⟨hfrom, hfl, hob, hgd⟩ := mem_generateSlidingMoves hbody
    refine ⟨by rw [hfrom]; exact hobi, hob, fun _ => hgd, ?_⟩
    simp only [hfl]
    intro hpawn
    rw [hfrom, hfin, htype] at hpawn
    simp at hpawn
  | KING =>
    simp only [htype] at hbody
    rcases mem_generateKingMoves hbody with ⟨hfrom, hfl, hob, hgd⟩ | hcastle
    · refine ⟨by rw [hfrom]; exact hobi, hob, fun _ => hgd, ?_⟩
      simp only [hfl]
      intro hpawn
      rw [hfrom, hfin, htype] at hpawn
      simp at hpawn
    · obtain ⟨hob, hgd, hck⟩ := hcastle
      rcases hck with ⟨hfl, hfacts⟩ | ⟨hfl, hfacts⟩
      · have hfromOb : onBoard m.fromSq.row m.fromSq.col := by
          rcases hfacts with ⟨-, -, hf, -, -⟩ | ⟨-, -, hf, -, -⟩ <;>
            { rw [hf]; exact ⟨by norm_num, by norm_num, by norm_num, by norm_num⟩ }
        refine ⟨hfromOb, hob, fun _ => hgd, ?_⟩
        simp only [hfl]
        exact hfacts
      · have hfromOb : onBoard m.fromSq.row m.fromSq.col := by
          rcases hfacts with ⟨-, -, hf, -, -⟩ | ⟨-, -, hf, -, -⟩ <;>
            { rw [hf]; exact ⟨by norm_num, by norm_num, by norm_num, by norm_num⟩ }
        refine ⟨hfromOb, hob, fun _ => hgd, ?_⟩
        simp only [hfl]
        exact hfacts

/-- The legality filter only selects from its input list. -/
theorem mem_filterLegal {player : PieceColor} :
    ∀ {b : BoardState} {ms : List Move} {m : Move},
      m ∈ filterLegal player b ms → m ∈ ms := by
  intro b ms
  induction ms generalizing b with
  | nil => intro m h; exact absurd h (List.not_mem_nil m)
  | cons x ms ih =>
    intro m h
    unfold filterLegal at h
    by_cases hk : ¬ isKingInCheck (makeMove b x).1 player = true
    · rw [if_pos hk] at h
      rcases List.mem_cons.mp h with h1 | h1
      · exact List.mem_cons.mpr (Or.inl h1)
      · exact List.mem_cons.mpr (Or.inr (ih h1))
    · rw [if_neg hk] at h
      exact List.mem_cons.mpr (Or.inr (ih h))

theorem legal_sub_pseudo {b : BoardState} {m : Move}
    (h : m ∈ generateAllLegalMoves b) : m ∈ generatePseudoLegalMoves b :=
  mem_filterLegal h

theorem legal_sound {b : BoardState} {m : Move}
    (h : m ∈ generateAllLegalMoves b) : MSound b m :=
  pseudo_sound (legal_sub_pseudo h)

/-! ### Castling-rights monotonicity (claim C8) -/

theorem crSubset_refl (a : CastlingRights) : crSubset a a :=
  ⟨fun h => h, fun h => h, fun h => h, fun h => h⟩

theorem crSubset_trans {a b c : CastlingRights} (h1 : crSubset a b)
    (h2 : crSubset b c) : crSubset a c :=
  ⟨fun h => h2.1 (h1.1 h), fun h => h2.2.1 (h1.2.1 h),
   fun h => h2.2.2.1 (h1.2.2.1 h), fun h => h2.2.2.2 (h1.2.2.2 h)⟩

theorem castleBranchRights_subset (cr : CastlingRights) (col : PieceColor) :
    crSubset (castleBranchRights cr col) cr := by
  unfold castleBranchRights crSubset
  split_ifs <;> simp_all

theorem rookCaptureRights_subset (cr : CastlingRights) (cp : Piece) (t : Position) :
    crSubset (rookCaptureRights cr cp t) cr := by
  unfold rookCaptureRights crSubset
  split_ifs <;> simp_all

theorem rookMoveRights_subset (cr : CastlingRights) (mv : Piece) (f : Position) :
    crSubset (rookMoveRights cr mv f) cr := by
  unfold rookMoveRights crSubset
  split_ifs <;> simp_all

theorem kingMoveRights_subset (cr : CastlingRights) (mv : Piece) :
    crSubset (kingMoveRights cr mv) cr := by
  unfold kingMoveRights
  split_ifs
  · exact castleBranchRights_subset cr mv.color
  · exact crSubset_refl cr

/-- `makeMove` never sets a castling-rights flag: the resulting rights are a
subset of the previous ones, for every state and every move. -/
theorem makeMove_castling_subset (b : BoardState) (m : Move) :
    crSubset (makeMove b m).1.castling b.castling := by
  show crSubset
    (kingMoveRights (rookMoveRights (rookCaptureRights _ _ _) _ _) _) b.castling
  refine crSubset_trans (kingMoveRights_subset _ _) ?_
  refine crSubset_trans (rookMoveRights_subset _ _ _) ?_
  refine crSubset_trans (rookCaptureRights_subset _ _ _) ?_
  by_cases hc : m.flag = MoveFlag.CASTLE_KING ∨ m.flag = MoveFlag.CASTLE_QUEEN
  · rw [if_pos hc]
    exact castleBranchRights_subset _ _
  · rw [if_neg hc]
    exact crSubset_refl _

theorem applyMoves_castling_subset (ms : List Move) (b : BoardState) :
    crSubset (applyMoves b ms).castling b.castling := by
  induction ms generalizing b with
  | nil => exact crSubset_refl _
  | cons m ms ih =>
    exact crSubset_trans (ih (makeMove b m).1) (makeMove_castling_subset b m)

/-- Claim C8: following any sequence of `apply` operations (no reverts)
from a position with castling rights `R`, the rights of every resulting
position are a subset of `R`; `apply` never turns a castling-rights flag
from false to true.  Stated for every application sequence (so also for
every intermediate position, which is reached by a prefix), with no
assumption on the starting state. -/
theorem C8_castling_rights_monotone (b : BoardState) (ms : List Move) :
    crSubset (applyMoves b ms).castling b.castling :=
  applyMoves_castling_subset ms b

/-! ### No legal move captures the mover's own king (claim C4) -/

/-- Claim C4 amended: the claim as stated (no legal move lands on a king of
either color) fails — see the counterexample — because the legality filter
only tests the mover's own king.  What does hold: under the en-passant
invariant of §3, no legal move's destination holds the king of the side to
move, so the mover's own king is never captured.  (The opponent's king can
be captured whenever the position has it en prise.) -/
theorem C4_no_capture_of_own_king (b : BoardState) (hep : epOK b) (m : Move)
    (hm : m ∈ generateAllLegalMoves b) :
    getSq b.squares m.toSq.row m.toSq.col ≠
      ⟨PieceType.KING, b.currentPlayer⟩ := by
  obtain ⟨hf, ht, hgd, hrest⟩ := legal_sound hm
  by_cases hfl : m.flag = MoveFlag.EN_PASSANT
  · simp only [hfl] at hrest
    obtain ⟨hto, -, -, -⟩ := hrest
    rcases hep with hnull | ⟨hob, hrank, hempty⟩
    · rw [hto] at ht
      have := ht.1
      omega
    · rw [hto, hempty]
      intro hcon
      exact absurd (congrArg Piece.type hcon) (by simp [emptyPiece])
  · intro hk
    exact hgd hfl (by rw [hk])

/-- Claim C4 counterexample: in the position `kingCaptureBoard` — which
satisfies the §3 invariants and in which the engine's own oracle reports
neither side in check — the legal-move list contains the pawn move
`(3,3)→(2,4)` whose destination holds the Black king. -/
theorem C4_counterexample :
    kingCaptureMove ∈ generateAllLegalMoves kingCaptureBoard ∧
    getSq kingCaptureBoard.squares 2 4 = ⟨PieceType.KING, PieceColor.BLACK⟩ ∧
    kingCaptureMove.toSq = ⟨2, 4⟩ ∧
    posOK kingCaptureBoard ∧
    isKingInCheck kingCaptureBoard PieceColor.BLACK = false ∧
    isKingInCheck kingCaptureBoard PieceColor.WHITE = false := by
  decide

theorem C4_no_capture_of_own_king_witness :
    epOK kingCaptureBoard ∧
    kingCaptureMove ∈ generateAllLegalMoves kingCaptureBoard ∧
    getSq kingCaptureBoard.squares kingCaptureMove.toSq.row
        kingCaptureMove.toSq.col ≠
      ⟨PieceType.KING, kingCaptureBoard.currentPlayer⟩ :=
  ⟨by decide, by decide,
   C4_no_capture_of_own_king kingCaptureBoard (by decide) kingCaptureMove
     (by decide)⟩

/-! ### The halfmove clock after a move (claim C3) -/

/-- Claim C3 amended: for a legal move, the halfmove clock after `apply` is
0 exactly when the move is flagged (promotion, en passant or castling), is a
capture, or is a pawn double push; otherwise it is the previous value plus
one.  The claim as stated fails because a quiet single pawn push (and a
quiet king move) leaves `resetHalfmove` false — see the counterexample. -/
theorem C3_halfmove_clock (b : BoardState) (m : Move)
    (hm : m ∈ generateAllLegalMoves b) :
    (makeMove b m).1.halfmoveClock =
      if m.flag ≠ MoveFlag.NORMAL ∨
          (getSq b.squares m.toSq.row m.toSq.col).type ≠ PieceType.EMPTY ∨
          ((getSq b.squares m.fromSq.row m.fromSq.col).type = PieceType.PAWN ∧
           (m.toSq.row - m.fromSq.row).natAbs = 2)
      then 0 else b.halfmoveClock + 1 := by
  obtain ⟨-, -, -, hrest⟩ := legal_sound hm
  cases hfl : m.flag with
  | CASTLE_KING =>
    simp only [makeMove, hfl]
    simp
  | CASTLE_QUEEN =>
    simp only [makeMove, hfl]
    simp
  | EN_PASSANT =>
    simp only [makeMove, hfl]
    simp
  | PROMOTION =>
    simp only [hfl] at hrest
    obtain ⟨hpawn, -, -, -, -⟩ := hrest
    simp only [makeMove, hfl, hpawn]
    simp
  | NORMAL =>
    simp only [makeMove, hfl]
    by_cases hcap : (getSq b.squares m.toSq.row m.toSq.col).type = PieceType.EMPTY <;>
      by_cases hdbl : (getSq b.squares m.fromSq.row m.fromSq.col).type =
          PieceType.PAWN ∧ (m.toSq.row - m.fromSq.row).natAbs = 2 <;>
      simp [hcap, hdbl]

/-- Claim C3 counterexample: from the initial position, the quiet single
pawn push `e2e3` is a legal pawn move, yet the halfmove clock afterwards is
1, not 0 — the claimed equivalence (clock 0 iff pawn move, capture,
castling, promotion or king move) is false at this input. -/
theorem C3_counterexample :
    e2e3Move ∈ generateAllLegalMoves initialBoard ∧
    (getSq initialBoard.squares e2e3Move.fromSq.row e2e3Move.fromSq.col).type =
      PieceType.PAWN ∧
    (makeMove initialBoard e2e3Move).1.halfmoveClock = 1 := by
  decide

theorem C3_halfmove_clock_witness :
    kingCaptureMove ∈ generateAllLegalMoves kingCaptureBoard ∧
    (makeMove kingCaptureBoard kingCaptureMove).1.halfmoveClock =
      (if kingCaptureMove.flag ≠ MoveFlag.NORMAL ∨
          (getSq kingCaptureBoard.squares kingCaptureMove.toSq.row
            kingCaptureMove.toSq.col).type ≠ PieceType.EMPTY ∨
          ((getSq kingCaptureBoard.squares kingCaptureMove.fromSq.row
             kingCaptureMove.fromSq.col).type = PieceType.PAWN ∧
           (kingCaptureMove.toSq.row - kingCaptureMove.fromSq.row).natAbs = 2)
       then 0 else kingCaptureBoard.halfmoveClock + 1) :=
  ⟨by decide, C3_halfmove_clock kingCaptureBoard kingCaptureMove (by decide)⟩

/-! ### Bounds safety of pawn-move generation (claim C10) -/

/-- Claim C10: if no pawn of the side to move stands on its own promotion
rank, then every board read performed by pseudo-legal pawn-move generation
from a pawn square `(r,c)` stays within rows and columns `0..7`. -/
theorem C10_pawn_gen_reads_on_board (b : BoardState) (r c : Int)
    (hrc : onBoard r c)
    (hp : getSq b.squares r c = ⟨PieceType.PAWN, b.currentPlayer⟩)
    (hnone : ∀ c' : Int, 0 ≤ c' → c' < 8 →
      getSq b.squares (promotionRankOf b.currentPlayer) c' ≠
        ⟨PieceType.PAWN, b.currentPlayer⟩) :
    ∀ p ∈ pawnGenReads b r c, onBoard p.1 p.2 := by
  have hrne : r ≠ promotionRankOf b.currentPlayer := by
    intro he
    exact hnone c hrc.2.2.1 hrc.2.2.2 (he ▸ hp)
  obtain ⟨hr0, hr8, hc0, hc8⟩ := hrc
  have hd : (dirOf b.currentPlayer = -1 ∧ startRowOf b.currentPlayer = 6 ∧
      promotionRankOf b.currentPlayer = 0) ∨
      (dirOf b.currentPlayer = 1 ∧ startRowOf b.currentPlayer = 1 ∧
       promotionRankOf b.currentPlayer = 7) := by
    unfold dirOf startRowOf promotionRankOf
    split_ifs <;> simp
  intro p hp2
  unfold pawnGenReads at hp2
  simp only [List.mem_append, List.mem_flatMap] at hp2
  rcases hp2 with (hpush | hstart) | ⟨newC, hnc, hbody⟩
  · by_cases hg : 0 ≤ r + dirOf b.currentPlayer ∧ r + dirOf b.currentPlayer < 8
    · rw [if_pos hg] at hpush
      have hpp : p = (r + dirOf b.currentPlayer, c) := by simpa using hpush
      subst hpp
      exact ⟨hg.1, hg.2, hc0, hc8⟩
    · rw [if_neg hg] at hpush
      simp at hpush
  · by_cases hg : r = startRowOf b.currentPlayer
    · rw [if_pos hg] at hstart
      have hpp : p = (r + dirOf b.currentPlayer, c) ∨
          p = (r + 2 * dirOf b.currentPlayer, c) := by simpa using hstart
      obtain ⟨hd1, hd2, hd3⟩ | ⟨hd1, hd2, hd3⟩ := hd <;>
        rw [hd2] at hg <;> rw [hd1] at hpp <;>
        rcases hpp with hpp | hpp <;> subst hpp <;>
        exact ⟨by omega, by omega, hc0, hc8⟩
    · rw [if_neg hg] at hstart
      simp at hstart
  · by_cases hgn : 0 ≤ newC ∧ newC < 8
    · rw [if_pos hgn] at hbody
      have hpp : p = (r + dirOf b.currentPlayer, newC) := by simpa using hbody
      subst hpp
      obtain ⟨hd1, hd2, hd3⟩ | ⟨hd1, hd2, hd3⟩ := hd <;>
        rw [hd3] at hrne <;>
        exact ⟨by rw [hd1]; omega, by rw [hd1]; omega, hgn.1, hgn.2⟩
    · rw [if_neg hgn] at hbody
      simp at hbody

theorem C10_pawn_gen_reads_on_board_witness :
    (onBoard 6 4 ∧
     getSq initialBoard.squares 6 4 =
       ⟨PieceType.PAWN, initialBoard.currentPlayer⟩) ∧
    ∀ p ∈ pawnGenReads initialBoard 6 4, onBoard p.1 p.2 :=
  ⟨⟨by decide, by decide⟩,
   C10_pawn_gen_reads_on_board initialBoard 6 4 (by decide) (by decide)
     (by
       intro c' h1 h2
       interval_cases c' <;> decide)⟩

/-! ### Reversibility of apply/revert (claim C2) -/

theorem makeMove_rec_move (b : BoardState) (m : Move) :
    (makeMove b m).2.move = m := rfl

theorem makeMove_rec_prevCastling (b : BoardState) (m : Move) :
    (makeMove b m).2.prevCastling = b.castling := rfl

theorem makeMove_rec_prevEnPassant (b : BoardState) (m : Move) :
    (makeMove b m).2.prevEnPassant = b.enPassantTarget := rfl

theorem makeMove_rec_prevHalfmove (b : BoardState) (m : Move) :
    (makeMove b m).2.prevHalfmoveClock = b.halfmoveClock := rfl

theorem makeMove_rec_prevFullmove (b : BoardState) (m : Move) :
    (makeMove b m).2.prevFullmoveNumber = b.fullmoveNumber := rfl

theorem makeMove_rec_prevPlayer (b : BoardState) (m : Move) :
    (makeMove b m).2.prevPlayer = b.currentPlayer := rfl

theorem makeMove_rec_captured_nonEP (b : BoardState) (m : Move)
    (hne : m.flag ≠ MoveFlag.EN_PASSANT) :
    (makeMove b m).2.captured = getSq b.squares m.toSq.row m.toSq.col := by
  unfold makeMove
  dsimp only
  rw [if_neg (fun hc => hne hc.1)]

theorem makeMove_squares_plain (b : BoardState) (m : Move)
    (h1 : ¬ (m.flag = MoveFlag.CASTLE_KING ∨ m.flag = MoveFlag.CASTLE_QUEEN))
    (h2 : m.flag ≠ MoveFlag.EN_PASSANT)
    (h3 : ¬ (m.flag = MoveFlag.PROMOTION ∧
      (getSq b.squares m.fromSq.row m.fromSq.col).type = PieceType.PAWN)) :
    (makeMove b m).1.squares =
      setSq (setSq b.squares m.toSq.row m.toSq.col
          (getSq b.squares m.fromSq.row m.fromSq.col))
        m.fromSq.row m.fromSq.col emptyPiece := by
  unfold makeMove
  dsimp only
  rw [if_neg h1, if_neg h2, if_neg h3]

theorem makeMove_squares_promo (b : BoardState) (m : Move)
    (h1 : m.flag = MoveFlag.PROMOTION)
    (h2 : (getSq b.squares m.fromSq.row m.fromSq.col).type = PieceType.PAWN) :
    (makeMove b m).1.squares =
      setSq (setSq b.squares m.toSq.row m.toSq.col
          ⟨m.promotion, (getSq b.squares m.fromSq.row m.fromSq.col).color⟩)
        m.fromSq.row m.fromSq.col emptyPiece := by
  unfold makeMove
  dsimp only
  rw [if_neg (by simp [h1]), if_neg (by simp [h1]), if_pos ⟨h1, h2⟩]

theorem makeMove_squares_ep (b : BoardState) (m : Move)
    (h1 : m.flag = MoveFlag.EN_PASSANT) :
    (makeMove b m).1.squares =
      (if onBoard (if b.currentPlayer = PieceColor.WHITE then m.toSq.row + 1
          else m.toSq.row - 1) m.toSq.col then
        setSq (setSq (setSq b.squares m.toSq.row m.toSq.col
            (getSq b.squares m.fromSq.row m.fromSq.col))
          m.fromSq.row m.fromSq.col emptyPiece)
          (if b.currentPlayer = PieceColor.WHITE then m.toSq.row + 1
           else m.toSq.row - 1) m.toSq.col emptyPiece
      else
        setSq (setSq b.squares m.toSq.row m.toSq.col
            (getSq b.squares m.fromSq.row m.fromSq.col))
          m.fromSq.row m.fromSq.col emptyPiece) := by
  unfold makeMove
  dsimp only
  rw [if_neg (by simp [h1]), if_pos h1]

theorem makeMove_rec_captured_ep (b : BoardState) (m : Move)
    (h1 : m.flag = MoveFlag.EN_PASSANT) :
    (makeMove b m).2.captured =
      (if onBoard (if b.currentPlayer = PieceColor.WHITE then m.toSq.row + 1
          else m.toSq.row - 1) m.toSq.col then
        getSq (setSq (setSq b.squares m.toSq.row m.toSq.col
            (getSq b.squares m.fromSq.row m.fromSq.col))
          m.fromSq.row m.fromSq.col emptyPiece)
          (if b.currentPlayer = PieceColor.WHITE then m.toSq.row + 1
           else m.toSq.row - 1) m.toSq.col
      else getSq b.squares m.toSq.row m.toSq.col) := by
  unfold makeMove
  dsimp only
  by_cases hob : onBoard (if b.currentPlayer = PieceColor.WHITE then m.toSq.row + 1
      else m.toSq.row - 1) m.toSq.col
  · rw [if_pos ⟨h1, hob⟩, if_pos hob]
  · rw [if_neg (fun hc => hob hc.2), if_neg hob]

theorem makeMove_squares_castle (b : BoardState) (m : Move)
    (h1 : m.flag = MoveFlag.CASTLE_KING ∨ m.flag = MoveFlag.CASTLE_QUEEN) :
    (makeMove b m).1.squares =
      (if (getSq b.squares m.fromSq.row m.fromSq.col).color = PieceColor.WHITE then
        if m.flag = MoveFlag.CASTLE_KING then
          setSq (setSq (setSq (setSq b.squares m.toSq.row m.toSq.col
              (getSq b.squares m.fromSq.row m.fromSq.col))
            m.fromSq.row m.fromSq.col emptyPiece) 7 5
            (getSq (setSq (setSq b.squares m.toSq.row m.toSq.col
              (getSq b.squares m.fromSq.row m.fromSq.col))
            m.fromSq.row m.fromSq.col emptyPiece) 7 7)) 7 7 emptyPiece
        else
          setSq (setSq (setSq (setSq b.squares m.toSq.row m.toSq.col
              (getSq b.squares m.fromSq.row m.fromSq.col))
            m.fromSq.row m.fromSq.col emptyPiece) 7 3
            (getSq (setSq (setSq b.squares m.toSq.row m.toSq.col
              (getSq b.squares m.fromSq.row m.fromSq.col))
            m.fromSq.row m.fromSq.col emptyPiece) 7 0)) 7 0 emptyPiece
      else
        if m.flag = MoveFlag.CASTLE_KING then
          setSq (setSq (setSq (setSq b.squares m.toSq.row m.toSq.col
              (getSq b.squares m.fromSq.row m.fromSq.col))
            m.fromSq.row m.fromSq.col emptyPiece) 0 5
            (getSq (setSq (setSq b.squares m.toSq.row m.toSq.col
              (getSq b.squares m.fromSq.row m.fromSq.col))
            m.fromSq.row m.fromSq.col emptyPiece) 0 7)) 0 7 emptyPiece
        else
          setSq (setSq (setSq (setSq b.squares m.toSq.row m.toSq.col
              (getSq b.squares m.fromSq.row m.fromSq.col))
            m.fromSq.row m.fromSq.col emptyPiece) 0 3
            (getSq (setSq (setSq b.squares m.toSq.row m.toSq.col
              (getSq b.squares m.fromSq.row m.fromSq.col))
            m.fromSq.row m.fromSq.col emptyPiece) 0 0)) 0 0 emptyPiece) := by
  unfold makeMove
  dsimp only
  rw [if_pos h1]

theorem undoMove_plain (bd : BoardState) (hist : MoveRecord)
    (h1 : hist.move.flag = MoveFlag.NORMAL) :
    undoMove bd hist =
      ⟨setSq (setSq bd.squares hist.move.fromSq.row hist.move.fromSq.col
          (getSq bd.squares hist.move.toSq.row hist.move.toSq.col))
         hist.move.toSq.row hist.move.toSq.col hist.captured,
       hist.prevPlayer, hist.prevCastling, hist.prevEnPassant,
       hist.prevHalfmoveClock, hist.prevFullmoveNumber⟩ := by
  unfold undoMove
  dsimp only
  rw [if_neg (by simp [h1]), if_neg (by simp [h1]), if_neg (by simp [h1])]

theorem undoMove_promo (bd : BoardState) (hist : MoveRecord)
    (h1 : hist.move.flag = MoveFlag.PROMOTION) :
    undoMove bd hist =
      ⟨setSq (setSq bd.squares hist.move.fromSq.row hist.move.fromSq.col
          ⟨PieceType.PAWN, hist.prevPlayer⟩)
         hist.move.toSq.row hist.move.toSq.col hist.captured,
       hist.prevPlayer, hist.prevCastling, hist.prevEnPassant,
       hist.prevHalfmoveClock, hist.prevFullmoveNumber⟩ := by
  unfold undoMove
  dsimp only
  rw [if_neg (by simp [h1]), if_neg (by simp [h1]), if_pos h1]

theorem undoMove_ep (bd : BoardState) (hist : MoveRecord)
    (h1 : hist.move.flag = MoveFlag.EN_PASSANT) :
    undoMove bd hist =
      ⟨(if onBoard (if hist.prevPlayer = PieceColor.WHITE then hist.move.toSq.row + 1
          else hist.move.toSq.row - 1) hist.move.toSq.col then
         setSq (setSq (setSq bd.squares hist.move.fromSq.row hist.move.fromSq.col
             (getSq bd.squares hist.move.toSq.row hist.move.toSq.col))
           hist.move.toSq.row hist.move.toSq.col emptyPiece)
           (if hist.prevPlayer = PieceColor.WHITE then hist.move.toSq.row + 1
            else hist.move.toSq.row - 1) hist.move.toSq.col hist.captured
        else
         setSq (setSq bd.squares hist.move.fromSq.row hist.move.fromSq.col
             (getSq bd.squares hist.move.toSq.row hist.move.toSq.col))
           hist.move.toSq.row hist.move.toSq.col emptyPiece),
       hist.prevPlayer, hist.prevCastling, hist.prevEnPassant,
       hist.prevHalfmoveClock, hist.prevFullmoveNumber⟩ := by
  unfold undoMove
  dsimp only
  rw [if_neg (by simp [h1]), if_pos h1]

theorem undoMove_castle (bd : BoardState) (hist : MoveRecord)
    (h1 : hist.move.flag = MoveFlag.CASTLE_KING ∨
      hist.move.flag = MoveFlag.CASTLE_QUEEN) :
    undoMove bd hist =
      ⟨(if hist.prevPlayer = PieceColor.WHITE then
          if hist.move.flag = MoveFlag.CASTLE_KING then
            setSq (setSq (setSq (setSq bd.squares hist.move.fromSq.row
                hist.move.fromSq.col
                (getSq bd.squares hist.move.toSq.row hist.move.toSq.col))
              hist.move.toSq.row hist.move.toSq.col emptyPiece) 7 7
              (getSq (setSq (setSq bd.squares hist.move.fromSq.row
                hist.move.fromSq.col
                (getSq bd.squares hist.move.toSq.row hist.move.toSq.col))
              hist.move.toSq.row hist.move.toSq.col emptyPiece) 7 5)) 7 5 emptyPiece
          else
            setSq (setSq (setSq (setSq bd.squares hist.move.fromSq.row
                hist.move.fromSq.col
                (getSq bd.squares hist.move.toSq.row hist.move.toSq.col))
              hist.move.toSq.row hist.move.toSq.col emptyPiece) 7 0
              (getSq (setSq (setSq bd.squares hist.move.fromSq.row
                hist.move.fromSq.col
                (getSq bd.squares hist.move.toSq.row hist.move.toSq.col))
              hist.move.toSq.row hist.move.toSq.col emptyPiece) 7 3)) 7 3 emptyPiece
        else
          if hist.move.flag = MoveFlag.CASTLE_KING then
            setSq (setSq (setSq (setSq bd.squares hist.move.fromSq.row
                hist.move.fromSq.col
                (getSq bd.squares hist.move.toSq.row hist.move.toSq.col))
              hist.move.toSq.row hist.move.toSq.col emptyPiece) 0 7
              (getSq (setSq (setSq bd.squares hist.move.fromSq.row
                hist.move.fromSq.col
                (getSq bd.squares hist.move.toSq.row hist.move.toSq.col))
              hist.move.toSq.row hist.move.toSq.col emptyPiece) 0 5)) 0 5 emptyPiece
          else
            setSq (setSq (setSq (setSq bd.squares hist.move.fromSq.row
                hist.move.fromSq.col
                (getSq bd.squares hist.move.toSq.row hist.move.toSq.col))
              hist.move.toSq.row hist.move.toSq.col emptyPiece) 0 0
              (getSq (setSq (setSq bd.squares hist.move.fromSq.row
                hist.move.fromSq.col
                (getSq bd.squares hist.move.toSq.row hist.move.toSq.col))
              hist.move.toSq.row hist.move.toSq.col emptyPiece) 0 3)) 0 3 emptyPiece),
       hist.prevPlayer, hist.prevCastling, hist.prevEnPassant,
       hist.prevHalfmoveClock, hist.prevFullmoveNumber⟩ := by
  unfold undoMove
  dsimp only
  rw [if_pos h1]

set_option maxHeartbeats 3200000 in
set_option maxRecDepth 8000 in
/-- Make followed by undo restores the position exactly, for every
pseudo-legal move, on every position satisfying the §3 invariants. -/
theorem make_undo_restores (b : BoardState) (m : Move)
    (hwf : piecesWF b) (hep : epOK b) (hcs : castleOK b)
    (hs : MSound b m) :
    undoMove (makeMove b m).1 (makeMove b m).2 = b := by
  obtain ⟨hfOb, htOb, hgd, hrest⟩ := hs
  cases hfl : m.flag with
  | NORMAL =>
    rw [undoMove_plain _ _ (by rw [makeMove_rec_move]; exact hfl)]
    rw [makeMove_rec_move, makeMove_rec_prevCastling, makeMove_rec_prevEnPassant,
      makeMove_rec_prevHalfmove, makeMove_rec_prevFullmove, makeMove_rec_prevPlayer,
      makeMove_rec_captured_nonEP _ _ (by rw [hfl]; decide),
      makeMove_squares_plain _ _ (by rw [hfl]; decide) (by rw [hfl]; decide)
        (fun hc => by rw [hfl] at hc; exact absurd hc.1 (by decide))]
    refine BoardState_ext ?_ rfl rfl rfl rfl rfl
    apply squares_ext
    intro r c hrc
    simp only [getSq_setSq, hrc, htOb, hfOb, true_and]
    split_ifs <;> simp_all <;> omega
  | PROMOTION =>
    rw [hfl] at hrest
    obtain ⟨hpw, htr, hfr2, hprm, hall⟩ := hrest
    have hner : m.fromSq.row ≠ m.toSq.row := by
      unfold dirOf at hfr2
      split_ifs at hfr2 <;> omega
    rw [undoMove_promo _ _ (by rw [makeMove_rec_move]; exact hfl)]
    rw [makeMove_rec_move, makeMove_rec_prevCastling, makeMove_rec_prevEnPassant,
      makeMove_rec_prevHalfmove, makeMove_rec_prevFullmove, makeMove_rec_prevPlayer,
      makeMove_rec_captured_nonEP _ _ (by rw [hfl]; decide),
      makeMove_squares_promo _ _ hfl (by rw [hpw])]
    refine BoardState_ext ?_ rfl rfl rfl rfl rfl
    apply squares_ext
    intro r c hrc
    simp only [getSq_setSq, hrc, htOb, hfOb, true_and]
    split_ifs <;> simp_all <;> omega
  | EN_PASSANT =>
    rw [hfl] at hrest
    obtain ⟨hte, hpw, hfr2, hcol⟩ := hrest
    have hner : m.fromSq.row ≠ m.toSq.row := by
      unfold dirOf at hfr2
      split_ifs at hfr2 <;> omega
    have hepT := hep
    unfold epOK at hepT
    rw [← hte] at hepT
    rcases hepT with h | ⟨_, _, hemp⟩
    · have := htOb.1
      omega
    have hcap : (if b.currentPlayer = PieceColor.WHITE then m.toSq.row + 1
        else m.toSq.row - 1) = m.fromSq.row := by
      unfold dirOf at hfr2
      split_ifs at hfr2 ⊢ <;> omega
    have hcapOb : onBoard m.fromSq.row m.toSq.col := by
      have h1 := hfOb
      have h2 := htOb
      unfold onBoard at h1 h2 ⊢
      omega
    clear hgd hte
    rw [undoMove_ep _ _ (by rw [makeMove_rec_move]; exact hfl)]
    rw [makeMove_rec_move, makeMove_rec_prevCastling, makeMove_rec_prevEnPassant,
      makeMove_rec_prevHalfmove, makeMove_rec_prevFullmove, makeMove_rec_prevPlayer,
      makeMove_rec_captured_ep _ _ hfl,
      makeMove_squares_ep _ _ hfl]
    rw [hcap]
    simp only [hcapOb, if_true]
    have hcapv : getSq (setSq (setSq b.squares m.toSq.row m.toSq.col
          (getSq b.squares m.fromSq.row m.fromSq.col))
        m.fromSq.row m.fromSq.col emptyPiece) m.fromSq.row m.toSq.col =
        getSq b.squares m.fromSq.row m.toSq.col := by
      rw [getSq_setSq, if_neg (show ¬ (onBoard m.fromSq.row m.toSq.col ∧
          m.fromSq.row = m.fromSq.row ∧ m.toSq.col = m.fromSq.col) from
          fun hc => hcol hc.2.2.symm),
        getSq_setSq, if_neg (show ¬ (onBoard m.fromSq.row m.toSq.col ∧
          m.fromSq.row = m.toSq.row ∧ m.toSq.col = m.toSq.col) from
          fun hc => hner hc.2.1)]
    have hmovv : getSq (setSq (setSq (setSq b.squares m.toSq.row m.toSq.col
            (getSq b.squares m.fromSq.row m.fromSq.col))
          m.fromSq.row m.fromSq.col emptyPiece) m.fromSq.row m.toSq.col
          emptyPiece) m.toSq.row m.toSq.col =
        getSq b.squares m.fromSq.row m.fromSq.col := by
      rw [getSq_setSq, if_neg (show ¬ (onBoard m.toSq.row m.toSq.col ∧
          m.toSq.row = m.fromSq.row ∧ m.toSq.col = m.toSq.col) from
          fun hc => hner hc.2.1.symm),
        getSq_setSq, if_neg (show ¬ (onBoard m.toSq.row m.toSq.col ∧
          m.toSq.row = m.fromSq.row ∧ m.toSq.col = m.fromSq.col) from
          fun hc => hner hc.2.1.symm),
        getSq_setSq, if_pos ⟨htOb, rfl, rfl⟩]
    rw [hcapv, hmovv]
    refine BoardState_ext ?_ rfl rfl rfl rfl rfl
    apply squares_ext
    intro r c hrc
    simp only [getSq_setSq, hrc, true_and]
    split_ifs <;> simp_all <;> omega
  | CASTLE_KING =>
    rw [hfl] at hrest
    rw [undoMove_castle _ _ (by rw [makeMove_rec_move]; exact Or.inl hfl)]
    rw [makeMove_rec_move, makeMove_rec_prevCastling, makeMove_rec_prevEnPassant,
      makeMove_rec_prevHalfmove, makeMove_rec_prevFullmove, makeMove_rec_prevPlayer,
      makeMove_squares_castle _ _ (Or.inl hfl)]
    refine BoardState_ext ?_ rfl rfl rfl rfl rfl
    clear hgd
    rcases hrest with ⟨hPw, hwk, hf, ht, he5, he6⟩ | ⟨hPb, hbk, hf, ht, he5, he6⟩
    · have hk : getSq b.squares 7 4 = ⟨PieceType.KING, PieceColor.WHITE⟩ :=
        hcs.1 (Or.inl hwk)
      have he5e : getSq b.squares 7 5 = emptyPiece := piecesWF_getSq hwf 7 5 he5
      have he6e : getSq b.squares 7 6 = emptyPiece := piecesWF_getSq hwf 7 6 he6
      have hfr : m.fromSq.row = 7 := by rw [hf]
      have hfc : m.fromSq.col = 4 := by rw [hf]
      have htr : m.toSq.row = 7 := by rw [ht]
      have htc : m.toSq.col = 6 := by rw [ht]
      rw [hfr, hfc, htr, htc]
      have hcol : (getSq b.squares 7 4).color = PieceColor.WHITE := by rw [hk]
      rw [if_pos hPw, if_pos hcol, if_pos hfl, if_pos hfl]
      apply squares_ext
      intro r c hrc
      simp only [getSq_setSq]
      simp only [hrc, true_and]
      norm_num [onBoard]
      split_ifs <;> simp_all <;> omega
    · have hk : getSq b.squares 0 4 = ⟨PieceType.KING, PieceColor.BLACK⟩ :=
        hcs.2 (Or.inl hbk)
      have he5e : getSq b.squares 0 5 = emptyPiece := piecesWF_getSq hwf 0 5 he5
      have he6e : getSq b.squares 0 6 = emptyPiece := piecesWF_getSq hwf 0 6 he6
      have hfr : m.fromSq.row = 0 := by rw [hf]
      have hfc : m.fromSq.col = 4 := by rw [hf]
      have htr : m.toSq.row = 0 := by rw [ht]
      have htc : m.toSq.col = 6 := by rw [ht]
      rw [hfr, hfc, htr, htc]
      have hcolb : ¬ (getSq b.squares 0 4).color = PieceColor.WHITE := by
        rw [hk]; decide
      rw [if_neg hPb, if_neg hcolb, if_pos hfl, if_pos hfl]
      apply squares_ext
      intro r c hrc
      simp only [getSq_setSq]
      simp only [hrc, true_and]
      norm_num [onBoard]
      split_ifs <;> simp_all <;> omega
  | CASTLE_QUEEN =>
    rw [hfl] at hrest
    rw [undoMove_castle _ _ (by rw [makeMove_rec_move]; exact Or.inr hfl)]
    rw [makeMove_rec_move, makeMove_rec_prevCastling, makeMove_rec_prevEnPassant,
      makeMove_rec_prevHalfmove, makeMove_rec_prevFullmove, makeMove_rec_prevPlayer,
      makeMove_squares_castle _ _ (Or.inr hfl)]
    refine BoardState_ext ?_ rfl rfl rfl rfl rfl
    clear hgd
    have hnk : ¬ m.flag = MoveFlag.CASTLE_KING := by rw [hfl]; decide
    rcases hrest with ⟨hPw, hwq, hf, ht, he1, he2, he3⟩ | ⟨hPb, hbq, hf, ht, he1, he2, he3⟩
    · have hk : getSq b.squares 7 4 = ⟨PieceType.KING, PieceColor.WHITE⟩ :=
        hcs.1 (Or.inr hwq)
      have he1e : getSq b.squares 7 1 = emptyPiece := piecesWF_getSq hwf 7 1 he1
      have he2e : getSq b.squares 7 2 = emptyPiece := piecesWF_getSq hwf 7 2 he2
      have he3e : getSq b.squares 7 3 = emptyPiece := piecesWF_getSq hwf 7 3 he3
      have hfr : m.fromSq.row = 7 := by rw [hf]
      have hfc : m.fromSq.col = 4 := by rw [hf]
      have htr : m.toSq.row = 7 := by rw [ht]
      have htc : m.toSq.col = 2 := by rw [ht]
      rw [hfr, hfc, htr, htc]
      have hcol : (getSq b.squares 7 4).color = PieceColor.WHITE := by rw [hk]
      rw [if_pos hPw, if_pos hcol, if_neg hnk, if_neg hnk]
      apply squares_ext
      intro r c hrc
      simp only [getSq_setSq]
      simp only [hrc, true_and]
      norm_num [onBoard]
      split_ifs <;> simp_all <;> omega
    · have hk : getSq b.squares 0 4 = ⟨PieceType.KING, PieceColor.BLACK⟩ :=
        hcs.2 (Or.inr hbq)
      have he1e : getSq b.squares 0 1 = emptyPiece := piecesWF_getSq hwf 0 1 he1
      have he2e : getSq b.squares 0 2 = emptyPiece := piecesWF_getSq hwf 0 2 he2
      have he3e : getSq b.squares 0 3 = emptyPiece := piecesWF_getSq hwf 0 3 he3
      have hfr : m.fromSq.row = 0 := by rw [hf]
      have hfc : m.fromSq.col = 4 := by rw [hf]
      have htr : m.toSq.row = 0 := by rw [ht]
      have htc : m.toSq.col = 2 := by rw [ht]
      rw [hfr, hfc, htr, htc]
      have hcolb : ¬ (getSq b.squares 0 4).color = PieceColor.WHITE := by
        rw [hk]; decide
      rw [if_neg hPb, if_neg hcolb, if_neg hnk, if_neg hnk]
      apply squares_ext
      intro r c hrc
      simp only [getSq_setSq]
      simp only [hrc, true_and]
      norm_num [onBoard]
      split_ifs <;> simp_all <;> omega

theorem bubblePass_perm : ∀ l : List (Int × Move), List.Perm (bubblePass l) l
  | [] => by
    unfold bubblePass
    exact List.Perm.refl _
  | [x] => by
    unfold bubblePass
    exact List.Perm.refl _
  | x :: y :: rest => by
    unfold bubblePass
    split_ifs
    · exact ((bubblePass_perm (x :: rest)).cons y).trans (List.Perm.swap x y rest)
    · exact (bubblePass_perm (y :: rest)).cons x
termination_by l => l.length

theorem bubbleIter_perm : ∀ (n : Nat) (l : List (Int × Move)),
    List.Perm (bubbleIter n l) l
  | 0, _ => List.Perm.refl _
  | n + 1, l => (bubbleIter_perm n (bubblePass l)).trans (bubblePass_perm l)

theorem scoreMoves_perm (b : BoardState) (ms : List Move) :
    List.Perm (scoreMoves b ms) ms := by
  unfold scoreMoves
  have h2 := List.Perm.map Prod.snd
    (bubbleIter_perm ms.length (ms.map fun m => (scoreMove b m, m)))
  have h3 : (ms.map fun m => (scoreMove b m, m)).map Prod.snd = ms := by
    rw [List.map_map]
    have hc : (Prod.snd ∘ fun m : Move => (scoreMove b m, m)) = id := rfl
    rw [hc, List.map_id]
  rwa [h3] at h2

theorem fLoop_result :
    ∀ (ms : List Move) (fuel : Nat) (b : BoardState) (best : Move) (bv a : Int),
      fLoop fuel b ms best bv a = best ∨ fLoop fuel b ms best bv a ∈ ms := by
  intro ms
  induction ms with
  | nil =>
    intro fuel b best bv a
    exact Or.inl rfl
  | cons m ms ih =>
    intro fuel b best bv a
    have key : ∀ (b' : BoardState) (best' : Move) (bv' a' : Int),
        (best' = m ∨ best' = best) →
        (fLoop fuel b' ms best' bv' a' = best ∨
         fLoop fuel b' ms best' bv' a' ∈ m :: ms) := by
      intro b' best' bv' a' hb
      rcases ih fuel b' best' bv' a' with h | h
      · rcases hb with hb | hb
        · right
          rw [h, hb]
          exact List.mem_cons_self _ _
        · left
          rw [h, hb]
      · right
        exact List.mem_cons_of_mem _ h
    unfold fLoop
    exact key _ _ _ _ (by split_ifs <;> simp)

/-- Claim C5: for every fuel bound and every position, `findBestMove`
returns a move with `from.row = -1` exactly when the position has no legal
moves. -/
theorem C5_null_move_iff_no_legal (fuel : Nat) (b : BoardState) :
    (findBestMove fuel b).fromSq.row = -1 ↔ generateAllLegalMoves b = [] := by
  constructor
  · intro h
    by_contra hne
    have hsp := scoreMoves_perm b (generateAllLegalMoves b)
    have hsne : scoreMoves b (generateAllLegalMoves b) ≠ [] := by
      intro h0
      apply hne
      rw [h0] at hsp
      exact (List.Perm.nil_eq hsp).symm
    unfold findBestMove at h
    simp only [] at h
    by_cases hcond : (fLoop fuel b (scoreMoves b (generateAllLegalMoves b))
        ⟨⟨-1, -1⟩, ⟨-1, -1⟩, PieceType.EMPTY, MoveFlag.NORMAL⟩
        (-INFINITY_SCORE) (-INFINITY_SCORE)).fromSq.row = -1 ∧
        (scoreMoves b (generateAllLegalMoves b)).length > 0
    · rw [if_pos hcond] at h
      obtain ⟨x, xs, hxs⟩ := List.exists_cons_of_ne_nil hsne
      rw [hxs] at h
      have hx : x ∈ scoreMoves b (generateAllLegalMoves b) := by
        rw [hxs]
        exact List.mem_cons_self _ _
      have hxl : x ∈ generateAllLegalMoves b := hsp.mem_iff.mp hx
      have := (legal_sound hxl).1.1
      simp only [List.headD_cons] at h
      omega
    · rw [if_neg hcond] at h
      have hlen : ¬ (scoreMoves b (generateAllLegalMoves b)).length > 0 :=
        fun hl => hcond ⟨h, hl⟩
      exact hsne (List.eq_nil_of_length_eq_zero (by omega))
  · intro h
    unfold findBestMove
    rw [h]
    rfl

/-! ### The seed perft test (claim C7) -/

/-- Claim C7: from the default initial position there are exactly 20 legal
moves; after applying the Normal move `(6,4)→(4,4)` the side to move is
Black, the en-passant target is `(5,4)`, the halfmove clock is 0 and the
fullmove number is 1; Black then has exactly 20 legal moves; and reverting
the move restores the initial position exactly. -/
theorem C7_seed_test :
    (generateAllLegalMoves initialBoard).length = 20 ∧
    (makeMove initialBoard e2e4Move).1.currentPlayer = PieceColor.BLACK ∧
    (makeMove initialBoard e2e4Move).1.enPassantTarget = ⟨5, 4⟩ ∧
    (makeMove initialBoard e2e4Move).1.halfmoveClock = 0 ∧
    (makeMove initialBoard e2e4Move).1.fullmoveNumber = 1 ∧
    (generateAllLegalMoves (makeMove initialBoard e2e4Move).1).length = 20 ∧
    undoMove (makeMove initialBoard e2e4Move).1 (makeMove initialBoard e2e4Move).2 =
      initialBoard := by
  decide

/-- Claim C1: the claim states that a White pawn on `(r+1, c±1)` makes
`is_square_attacked(pos, r, c, White)` true.  The code samples the reversed
direction: with a single White pawn on `(3,4)`, the squares `(2,3)` and
`(2,5)` — which that pawn can actually capture onto, and which the claim
says it attacks — are reported NOT attacked, while `(4,3)` and `(4,5)`,
diagonally behind the pawn, are reported attacked.  This contradicts the
engine's own pawn capture generation (`generatePawnMoves` captures to
`(r-1, c±1)` for White) and makes the check oracle miss real pawn checks. -/
theorem C1_pawn_attack_direction :
    getSq pawnAttackBoard.squares 3 4 = ⟨PieceType.PAWN, PieceColor.WHITE⟩ ∧
    isSquareAttacked pawnAttackBoard 2 3 PieceColor.WHITE = false ∧
    isSquareAttacked pawnAttackBoard 2 5 PieceColor.WHITE = false ∧
    isSquareAttacked pawnAttackBoard 4 3 PieceColor.WHITE = true ∧
    isSquareAttacked pawnAttackBoard 4 5 PieceColor.WHITE = true := by
  decide

/-! ### Loading the en-passant square from a file (claim C9) -/

/-- Claim C9: the claim states that loading a well-formed position file
whose eleventh line names a square (such as `e3`) sets the en-passant
target to that square.  In the code, `fgets` keeps the trailing newline, so
`algebraicToPos` receives `"e3\n"`, fails its `strlen == 2` test and
returns `(-1,-1)`: the load succeeds but the en-passant target is always
null.  On the position after `1.e4` (eleventh line `e3`) the loaded target
is `(-1,-1)`, not the claimed `(5,4)`; `algebraicToPos` itself maps the
bare `"e3"` to `(5,4)` and `"e3\n"` to null. -/
theorem C9_load_drops_en_passant :
    (loadBoardFromContents fileAfterE4).map (fun b => b.enPassantTarget) =
      some nullPos ∧
    (loadBoardFromContents fileAfterE4).map (fun b => b.currentPlayer) =
      some PieceColor.BLACK ∧
    algebraicToPos ("e3").data = ⟨5, 4⟩ ∧
    algebraicToPos ("e3\n").data = nullPos := by
  decide

/-! ### Reversibility for legal moves (claim C2) -/

/-- Claim C2: applying a legal move and then reverting it leaves the
position bitwise identical — board array, side to move, castling rights, en
passant target and both clocks — on every position satisfying the §3
invariants of the data model. -/
theorem C2_apply_revert_identity (b : BoardState) (hok : posOK b) (m : Move)
    (hm : m ∈ generateAllLegalMoves b) :
    undoMove (makeMove b m).1 (makeMove b m).2 = b :=
  make_undo_restores b m hok.1 hok.2.1 hok.2.2 (legal_sound hm)

theorem C2_apply_revert_identity_witness :
    posOK initialBoard ∧ e2e4Move ∈ generateAllLegalMoves initialBoard ∧
    undoMove (makeMove initialBoard e2e4Move).1
      (makeMove initialBoard e2e4Move).2 = initialBoard :=
  ⟨by decide, by decide,
   C2_apply_revert_identity initialBoard (by decide) e2e4Move (by decide)⟩

/-! ### Promotion resolution of user input (claim C6) -/

theorem anyCongr {α : Type} {l : List α} {f g : α → Bool}
    (h : ∀ x ∈ l, f x = g x) : l.any f = l.any g := by
  induction l with
  | nil => rfl
  | cons a l ih =>
    simp only [List.any_cons]
    rw [h a (List.mem_cons_self a l), ih fun x hx => h x (List.mem_cons_of_mem a hx)]

theorem findSomeCongr {α β : Type} {l : List α} {f g : α → Option β}
    (h : ∀ x ∈ l, f x = g x) : l.findSome? f = l.findSome? g := by
  induction l with
  | nil => rfl
  | cons a l ih =>
    rw [List.findSome?_cons, List.findSome?_cons, h a (List.mem_cons_self a l)]
    cases g a with
    | some v => rfl
    | none => exact ih fun x hx => h x (List.mem_cons_of_mem a hx)

theorem rayAttacks_sim {s1 s2 : Fin 8 → Fin 8 → Piece} {col : PieceColor}
    (h : simExcept s1 s2 col) {atk : PieceColor} (hatk : atk ≠ col)
    (isDiag : Bool) :
    ∀ (fuel : Nat) (r c dR dC : Int),
      rayAttacks s1 atk isDiag r c dR dC fuel =
        rayAttacks s2 atk isDiag r c dR dC fuel := by
  intro fuel
  induction fuel with
  | zero => intro r c dR dC; rfl
  | succ n ih =>
    intro r c dR dC
    simp only [rayAttacks]
    by_cases hob : onBoard (r + dR) (c + dC)
    · rw [if_pos hob, if_pos hob]
      rcases h (r + dR) (c + dC) with heq | ⟨h1, h2, -, -, hc1, hc2⟩
      · rw [heq]
        by_cases ht : (getSq s2 (r + dR) (c + dC)).type ≠ PieceType.EMPTY
        · rw [if_pos ht, if_pos ht]
        · rw [if_neg ht, if_neg ht]
          exact ih (r + dR) (c + dC) dR dC
      · rw [if_pos h1, if_pos h2, decide_eq_decide]
        exact ⟨fun hc => absurd (hc.1.symm.trans hc1) hatk,
               fun hc => absurd (hc.1.symm.trans hc2) hatk⟩
    · rw [if_neg hob, if_neg hob]

theorem isSquareAttacked_sim {b1 b2 : BoardState} {col : PieceColor}
    (h : simExcept b1.squares b2.squares col) {atk : PieceColor}
    (hatk : atk ≠ col) (r c : Int) :
    isSquareAttacked b1 r c atk = isSquareAttacked b2 r c atk := by
  have esq : ∀ (rr cc : Int) (pt : PieceType),
      decide ((getSq b1.squares rr cc).color = atk ∧
          (getSq b1.squares rr cc).type = pt) =
        decide ((getSq b2.squares rr cc).color = atk ∧
          (getSq b2.squares rr cc).type = pt) := by
    intro rr cc pt
    rcases h rr cc with heq | ⟨-, -, -, -, hc1, hc2⟩
    · rw [heq]
    · rw [decide_eq_decide]
      exact ⟨fun hc => absurd (hc.1.symm.trans hc1) hatk,
             fun hc => absurd (hc.1.symm.trans hc2) hatk⟩
  have e1 : (slideDirections.any fun d =>
        rayAttacks b1.squares atk d.2 r c d.1.1 d.1.2 7) =
      (slideDirections.any fun d =>
        rayAttacks b2.squares atk d.2 r c d.1.1 d.1.2 7) :=
    anyCongr fun d _ => rayAttacks_sim h hatk d.2 7 r c d.1.1 d.1.2
  have e2 : (knightOffsets.any fun d =>
        decide (onBoard (r + d.1) (c + d.2)) &&
          decide ((getSq b1.squares (r + d.1) (c + d.2)).color = atk ∧
            (getSq b1.squares (r + d.1) (c + d.2)).type = PieceType.KNIGHT)) =
      (knightOffsets.any fun d =>
        decide (onBoard (r + d.1) (c + d.2)) &&
          decide ((getSq b2.squares (r + d.1) (c + d.2)).color = atk ∧
            (getSq b2.squares (r + d.1) (c + d.2)).type = PieceType.KNIGHT)) :=
    anyCongr fun d _ => by rw [esq (r + d.1) (c + d.2) PieceType.KNIGHT]
  have e4 : (kingOffsets.any fun d =>
        decide (onBoard (r + d.1) (c + d.2)) &&
          decide ((getSq b1.squares (r + d.1) (c + d.2)).color = atk ∧
            (getSq b1.squares (r + d.1) (c + d.2)).type = PieceType.KING)) =
      (kingOffsets.any fun d =>
        decide (onBoard (r + d.1) (c + d.2)) &&
          decide ((getSq b2.squares (r + d.1) (c + d.2)).color = atk ∧
            (getSq b2.squares (r + d.1) (c + d.2)).type = PieceType.KING)) :=
    anyCongr fun d _ => by rw [esq (r + d.1) (c + d.2) PieceType.KING]
  simp only [isSquareAttacked]
  rw [e1, e2, e4,
    esq (r + (if atk = PieceColor.WHITE then (-1 : Int) else 1)) (c - 1)
      PieceType.PAWN,
    esq (r + (if atk = PieceColor.WHITE then (-1 : Int) else 1)) (c + 1)
      PieceType.PAWN]

theorem findKing_sim {s1 s2 : Fin 8 → Fin 8 → Piece} {col : PieceColor}
    (h : simExcept s1 s2 col) (kc : PieceColor) :
    findKing s1 kc = findKing s2 kc := by
  unfold findKing
  have hin : ∀ r : Fin 8,
      ((List.finRange 8).findSome? fun c =>
        if (s1 r c).type = PieceType.KING ∧ (s1 r c).color = kc then
          some (⟨(r : Int), (c : Int)⟩ : Position)
        else none) =
      ((List.finRange 8).findSome? fun c =>
        if (s2 r c).type = PieceType.KING ∧ (s2 r c).color = kc then
          some (⟨(r : Int), (c : Int)⟩ : Position)
        else none) := by
    intro r
    refine findSomeCongr fun c _ => ?_
    have hx := h (r : Int) (c : Int)
    rw [getSq_fin, getSq_fin] at hx
    rcases hx with heq | ⟨-, -, hk1, hk2, -, -⟩
    · rw [heq]
    · have hn1 : ¬ ((s1 r c).type = PieceType.KING ∧ (s1 r c).color = kc) :=
        fun hc => hk1 hc.1
      have hn2 : ¬ ((s2 r c).type = PieceType.KING ∧ (s2 r c).color = kc) :=
        fun hc => hk2 hc.1
      rw [if_neg hn1, if_neg hn2]
  rw [findSomeCongr fun r _ => hin r]

theorem isKingInCheck_sim {b1 b2 : BoardState} {col : PieceColor}
    (h : simExcept b1.squares b2.squares col) (p : PieceColor)
    (hatk : (if p = PieceColor.WHITE then PieceColor.BLACK
      else PieceColor.WHITE) ≠ col) :
    isKingInCheck b1 p = isKingInCheck b2 p := by
  simp only [isKingInCheck]
  rw [findKing_sim h p]
  by_cases hk : (findKing b2.squares p).row = -1
  · rw [if_pos hk, if_pos hk]
  · rw [if_neg hk, if_neg hk]
    exact isSquareAttacked_sim h hatk _ _

theorem filterLegal_eq {b : BoardState} {player : PieceColor}
    (hwf : piecesWF b) (hep : epOK b) (hcs : castleOK b) :
    ∀ ms : List Move, (∀ m ∈ ms, MSound b m) →
      filterLegal player b ms =
        ms.filter fun m => ! isKingInCheck (makeMove b m).1 player := by
  intro ms
  induction ms with
  | nil => intro _; rfl
  | cons m ms ih =>
    intro hall
    have hrestore := make_undo_restores b m hwf hep hcs
      (hall m (List.mem_cons_self m ms))
    simp only [filterLegal]
    rw [hrestore, ih fun x hx => hall x (List.mem_cons_of_mem m hx),
      List.filter_cons]
    by_cases hkb : isKingInCheck (makeMove b m).1 player = true
    · rw [if_neg (fun hcon => hcon hkb), if_neg (by simp [hkb])]
    · have hkf : isKingInCheck (makeMove b m).1 player = false := by
        simpa using hkb
      rw [if_pos hkb, if_pos (by simp [hkf])]

theorem generateAllLegalMoves_eq (b : BoardState) (hok : posOK b) :
    generateAllLegalMoves b =
      (generatePseudoLegalMoves b).filter
        fun m => ! isKingInCheck (makeMove b m).1 b.currentPlayer :=
  filterLegal_eq hok.1 hok.2.1 hok.2.2 _ fun _ hm => pseudo_sound hm

theorem promo_variant_sim (b : BoardState) (f t : Position) (p1 p2 : PieceType)
    (hp : getSq b.squares f.row f.col = ⟨PieceType.PAWN, b.currentPlayer⟩)
    (h1 : p1 ∈ [PieceType.QUEEN, PieceType.ROOK, PieceType.BISHOP,
      PieceType.KNIGHT])
    (h2 : p2 ∈ [PieceType.QUEEN, PieceType.ROOK, PieceType.BISHOP,
      PieceType.KNIGHT]) :
    simExcept (makeMove b ⟨f, t, p1, MoveFlag.PROMOTION⟩).1.squares
      (makeMove b ⟨f, t, p2, MoveFlag.PROMOTION⟩).1.squares b.currentPlayer := by
  have hsq1 : (makeMove b ⟨f, t, p1, MoveFlag.PROMOTION⟩).1.squares =
      setSq (setSq b.squares t.row t.col
        ⟨p1, (getSq b.squares f.row f.col).color⟩) f.row f.col emptyPiece := by
    rw [makeMove_squares_promo b ⟨f, t, p1, MoveFlag.PROMOTION⟩ rfl
      (show (getSq b.squares f.row f.col).type = PieceType.PAWN by rw [hp])]
  have hsq2 : (makeMove b ⟨f, t, p2, MoveFlag.PROMOTION⟩).1.squares =
      setSq (setSq b.squares t.row t.col
        ⟨p2, (getSq b.squares f.row f.col).color⟩) f.row f.col emptyPiece := by
    rw [makeMove_squares_promo b ⟨f, t, p2, MoveFlag.PROMOTION⟩ rfl
      (show (getSq b.squares f.row f.col).type = PieceType.PAWN by rw [hp])]
  rw [hsq1, hsq2]
  intro r c
  simp only [getSq_setSq]
  by_cases hF : onBoard r c ∧ r = f.row ∧ c = f.col
  · rw [if_pos hF, if_pos hF]
    exact Or.inl rfl
  · rw [if_neg hF, if_neg hF]
    by_cases hT : onBoard r c ∧ r = t.row ∧ c = t.col
    · rw [if_pos hT, if_pos hT]
      right
      rw [hp]
      fin_cases h1 <;> fin_cases h2 <;>
        exact ⟨fun hc => PieceType.noConfusion hc, fun hc => PieceType.noConfusion hc,
          fun hc => PieceType.noConfusion hc, fun hc => PieceType.noConfusion hc,
          rfl, rfl⟩
    · rw [if_neg hT, if_neg hT]
      exact Or.inl rfl

theorem promo_variant_check (b : BoardState) (f t : Position)
    (p1 p2 : PieceType)
    (hp : getSq b.squares f.row f.col = ⟨PieceType.PAWN, b.currentPlayer⟩)
    (h1 : p1 ∈ [PieceType.QUEEN, PieceType.ROOK, PieceType.BISHOP,
      PieceType.KNIGHT])
    (h2 : p2 ∈ [PieceType.QUEEN, PieceType.ROOK, PieceType.BISHOP,
      PieceType.KNIGHT]) :
    isKingInCheck (makeMove b ⟨f, t, p1, MoveFlag.PROMOTION⟩).1
        b.currentPlayer =
      isKingInCheck (makeMove b ⟨f, t, p2, MoveFlag.PROMOTION⟩).1
        b.currentPlayer :=
  isKingInCheck_sim (promo_variant_sim b f t p1 p2 hp h1 h2) b.currentPlayer
    (by cases hv : b.currentPlayer <;> simp [hv] <;> decide)

theorem coord_match_promo {b : BoardState} (hep : epOK b) (hcs : castleOK b)
    {pm m : Move} (hpmS : MSound b pm) (hpf : pm.flag = MoveFlag.PROMOTION)
    (hmS : MSound b m)
    (hfr : m.fromSq.row = pm.fromSq.row) (hfc : m.fromSq.col = pm.fromSq.col)
    (htr : m.toSq.row = pm.toSq.row) (htc : m.toSq.col = pm.toSq.col) :
    m.flag = MoveFlag.PROMOTION := by
  obtain ⟨hfOb, htOb, -, hrest⟩ := hmS
  obtain ⟨-, -, -, hrestP⟩ := hpmS
  rw [hpf] at hrestP
  obtain ⟨hpawnP, htrP, -, -, -⟩ := hrestP
  have hpawn : getSq b.squares m.fromSq.row m.fromSq.col =
      ⟨PieceType.PAWN, b.currentPlayer⟩ := by rw [hfr, hfc]; exact hpawnP
  have hpr : promotionRankOf b.currentPlayer = 0 ∨
      promotionRankOf b.currentPlayer = 7 := by
    unfold promotionRankOf; split_ifs <;> simp
  cases hfl : m.flag with
  | PROMOTION => rfl
  | NORMAL =>
    rw [hfl] at hrest
    exact absurd (htr.trans htrP) (hrest (by rw [hpawn])).2
  | EN_PASSANT =>
    exfalso
    rw [hfl] at hrest
    obtain ⟨hto, -, -, -⟩ := hrest
    have hrow : m.toSq.row = b.enPassantTarget.row := by rw [hto]
    have hpe := htr.trans htrP
    have h0 := htOb.1
    rcases hep with hnull | ⟨-, hr25, -⟩
    · omega
    · omega
  | CASTLE_KING =>
    exfalso
    rw [hfl] at hrest
    rcases hrest with ⟨-, hwk, hf4, -, -, -⟩ | ⟨-, hbk, hf4, -, -, -⟩
    · have hking := hcs.1 (Or.inl hwk)
      have hr7 : m.fromSq.row = 7 := by rw [hf4]
      have hc4 : m.fromSq.col = 4 := by rw [hf4]
      rw [hr7, hc4] at hpawn
      rw [hpawn] at hking
      simp at hking
    · have hking := hcs.2 (Or.inl hbk)
      have hr0 : m.fromSq.row = 0 := by rw [hf4]
      have hc4 : m.fromSq.col = 4 := by rw [hf4]
      rw [hr0, hc4] at hpawn
      rw [hpawn] at hking
      simp at hking
  | CASTLE_QUEEN =>
    exfalso
    rw [hfl] at hrest
    rcases hrest with ⟨-, hwq, hf4, -, -, -, -⟩ | ⟨-, hbq, hf4, -, -, -, -⟩
    · have hking := hcs.1 (Or.inr hwq)
      have hr7 : m.fromSq.row = 7 := by rw [hf4]
      have hc4 : m.fromSq.col = 4 := by rw [hf4]
      rw [hr7, hc4] at hpawn
      rw [hpawn] at hking
      simp at hking
    · have hking := hcs.2 (Or.inr hbq)
      have hr0 : m.fromSq.row = 0 := by rw [hf4]
      have hc4 : m.fromSq.col = 4 := by rw [hf4]
      rw [hr0, hc4] at hpawn
      rw [hpawn] at hking
      simp at hking

theorem resolveScan_queen (input : Move)
    (hni : input.flag ≠ MoveFlag.PROMOTION) :
    ∀ L : List Move,
      (∀ x ∈ L, coordMatch x input → x.flag = MoveFlag.PROMOTION) →
      ∀ w, w ∈ L → coordMatch w input → w.flag = MoveFlag.PROMOTION →
        w.promotion = PieceType.QUEEN →
        ∃ rm, resolveScan input L = some rm ∧ rm ∈ L ∧ coordMatch rm input ∧
          rm.flag = MoveFlag.PROMOTION ∧ rm.promotion = PieceType.QUEEN := by
  intro L
  induction L with
  | nil => intro _ w hw _ _ _; exact absurd hw (List.not_mem_nil w)
  | cons m ms ih =>
    intro hall w hw hwc hwfl hwq
    unfold resolveScan
    by_cases hc : m.fromSq.row = input.fromSq.row ∧
        m.fromSq.col = input.fromSq.col ∧
        m.toSq.row = input.toSq.row ∧ m.toSq.col = input.toSq.col
    · rw [if_pos hc]
      have hmf : m.flag = MoveFlag.PROMOTION :=
        hall m (List.mem_cons_self m ms) hc
      rw [if_pos hmf, if_neg hni]
      by_cases hq : m.promotion = PieceType.QUEEN
      · rw [if_pos hq]
        exact ⟨m, rfl, List.mem_cons_self m ms, hc, hmf, hq⟩
      · rw [if_neg hq]
        have hwms : w ∈ ms := by
          rcases List.mem_cons.mp hw with rfl | hx
          · exact absurd hwq hq
          · exact hx
        obtain ⟨rm, r1, r2, r3, r4, r5⟩ :=
          ih (fun x hx => hall x (List.mem_cons_of_mem m hx)) w hwms hwc hwfl hwq
        exact ⟨rm, r1, List.mem_cons_of_mem m r2, r3, r4, r5⟩
    · rw [if_neg hc]
      have hwms : w ∈ ms := by
        rcases List.mem_cons.mp hw with rfl | hx
        · exact absurd hwc hc
        · exact hx
      obtain ⟨rm, r1, r2, r3, r4, r5⟩ :=
        ih (fun x hx => hall x (List.mem_cons_of_mem m hx)) w hwms hwc hwfl hwq
      exact ⟨rm, r1, List.mem_cons_of_mem m r2, r3, r4, r5⟩

theorem resolveScan_promo (input : Move)
    (hpi : input.flag = MoveFlag.PROMOTION) :
    ∀ L : List Move,
      (∀ x ∈ L, coordMatch x input → x.flag = MoveFlag.PROMOTION) →
      ∀ w, w ∈ L → coordMatch w input → w.flag = MoveFlag.PROMOTION →
        w.promotion = input.promotion →
        ∃ rm, resolveScan input L = some rm ∧ rm ∈ L ∧ coordMatch rm input ∧
          rm.flag = MoveFlag.PROMOTION ∧ rm.promotion = input.promotion := by
  intro L
  induction L with
  | nil => intro _ w hw _ _ _; exact absurd hw (List.not_mem_nil w)
  | cons m ms ih =>
    intro hall w hw hwc hwfl hwq
    unfold resolveScan
    by_cases hc : m.fromSq.row = input.fromSq.row ∧
        m.fromSq.col = input.fromSq.col ∧
        m.toSq.row = input.toSq.row ∧ m.toSq.col = input.toSq.col
    · rw [if_pos hc]
      have hmf : m.flag = MoveFlag.PROMOTION :=
        hall m (List.mem_cons_self m ms) hc
      rw [if_pos hmf, if_pos hpi]
      by_cases hq : m.promotion = input.promotion
      · rw [if_pos hq]
        exact ⟨m, rfl, List.mem_cons_self m ms, hc, hmf, hq⟩
      · rw [if_neg hq]
        have hwms : w ∈ ms := by
          rcases List.mem_cons.mp hw with rfl | hx
          · exact absurd hwq hq
          · exact hx
        obtain ⟨rm, r1, r2, r3, r4, r5⟩ :=
          ih (fun x hx => hall x (List.mem_cons_of_mem m hx)) w hwms hwc hwfl hwq
        exact ⟨rm, r1, List.mem_cons_of_mem m r2, r3, r4, r5⟩
    · rw [if_neg hc]
      have hwms : w ∈ ms := by
        rcases List.mem_cons.mp hw with rfl | hx
        · exact absurd hwc hc
        · exact hx
      obtain ⟨rm, r1, r2, r3, r4, r5⟩ :=
        ih (fun x hx => hall x (List.mem_cons_of_mem m hx)) w hwms hwc hwfl hwq
      exact ⟨rm, r1, List.mem_cons_of_mem m r2, r3, r4, r5⟩

theorem parseMove_len4 (s : String) (h : s.data.length = 4) :
    (parseMove s).flag = MoveFlag.NORMAL ∧
      (parseMove s).promotion = PieceType.EMPTY := by
  simp only [parseMove]
  rw [if_neg (show ¬ s.data.length < 4 by rw [h]; decide),
    if_neg (show ¬ s.data.length = 5 by rw [h]; decide)]
  exact ⟨rfl, rfl⟩

theorem parseMove_len5 (s : String) (h : s.data.length = 5)
    (hch : toLowerC (s.data.getD 4 (Char.ofNat 0)) = 'n') :
    (parseMove s).flag = MoveFlag.PROMOTION ∧
      (parseMove s).promotion = PieceType.KNIGHT := by
  simp only [parseMove]
  rw [if_neg (show ¬ s.data.length < 4 by rw [h]; decide), if_pos h, hch]
  refine ⟨rfl, ?_⟩
  show (if ('n' : Char) = 'q' then PieceType.QUEEN
    else if 'n' = 'r' then PieceType.ROOK
    else if 'n' = 'b' then PieceType.BISHOP
    else if 'n' = 'n' then PieceType.KNIGHT
    else PieceType.EMPTY) = PieceType.KNIGHT
  decide

/-- Claim C6: when the user's input coordinates match a legal promoting
pawn move, a 4-character input resolves to the Queen promotion and a
5-character input ending in `n` to the Knight promotion, and the resolved
move leaves that piece of the mover's color on the destination square. -/
theorem C6_promotion_resolution (b : BoardState) (s : String) (pm : Move)
    (hok : posOK b) (hpm : pm ∈ generateAllLegalMoves b)
    (hpf : pm.flag = MoveFlag.PROMOTION)
    (hcm : coordMatch pm (parseMove s)) :
    (s.data.length = 4 →
      ∃ rm, resolveMove b (parseMove s) = some rm ∧
        rm.flag = MoveFlag.PROMOTION ∧ rm.promotion = PieceType.QUEEN ∧
        getSq (makeMove b rm).1.squares (parseMove s).toSq.row
          (parseMove s).toSq.col = ⟨PieceType.QUEEN, b.currentPlayer⟩) ∧
    (s.data.length = 5 → toLowerC (s.data.getD 4 (Char.ofNat 0)) = 'n' →
      ∃ rm, resolveMove b (parseMove s) = some rm ∧
        rm.flag = MoveFlag.PROMOTION ∧ rm.promotion = PieceType.KNIGHT ∧
        getSq (makeMove b rm).1.squares (parseMove s).toSq.row
          (parseMove s).toSq.col = ⟨PieceType.KNIGHT, b.currentPlayer⟩) := by
  obtain ⟨hwf, hep, hcs⟩ := hok
  have hglm := generateAllLegalMoves_eq b ⟨hwf, hep, hcs⟩
  have hpmS := pseudo_sound (legal_sub_pseudo hpm)
  have hrestP := hpmS.2.2.2
  rw [hpf] at hrestP
  obtain ⟨hpawn, -, -, hprm, hall⟩ := hrestP
  have hpm' := hpm
  rw [hglm] at hpm'
  have hpred := (List.mem_filter.mp hpm').2
  have hpm_eta : pm = ⟨pm.fromSq, pm.toSq, pm.promotion, MoveFlag.PROMOTION⟩ := by
    rw [← hpf]
  rw [hpm_eta] at hpred
  have hvar : ∀ pt ∈ [PieceType.QUEEN, PieceType.ROOK, PieceType.BISHOP,
      PieceType.KNIGHT],
      (⟨pm.fromSq, pm.toSq, pt, MoveFlag.PROMOTION⟩ : Move) ∈
        generateAllLegalMoves b := by
    intro pt hpt
    rw [hglm]
    refine List.mem_filter.mpr ⟨hall pt hpt, ?_⟩
    show (! isKingInCheck
      (makeMove b ⟨pm.fromSq, pm.toSq, pt, MoveFlag.PROMOTION⟩).1
      b.currentPlayer) = true
    rw [promo_variant_check b pm.fromSq pm.toSq pt pm.promotion hpawn hpt hprm]
    exact hpred
  have hcoords : ∀ x ∈ generateAllLegalMoves b, coordMatch x (parseMove s) →
      x.flag = MoveFlag.PROMOTION := by
    intro x hx hcx
    exact coord_match_promo hep hcs hpmS hpf (legal_sound hx)
      (hcx.1.trans hcm.1.symm) (hcx.2.1.trans hcm.2.1.symm)
      (hcx.2.2.1.trans hcm.2.2.1.symm) (hcx.2.2.2.trans hcm.2.2.2.symm)
  constructor
  · intro h4
    obtain ⟨hfl4, -⟩ := parseMove_len4 s h4
    have hni : (parseMove s).flag ≠ MoveFlag.PROMOTION := by
      rw [hfl4]; decide
    obtain ⟨rm, hres, hmem, hrc, hrfl, hrq⟩ :=
      resolveScan_queen (parseMove s) hni (generateAllLegalMoves b) hcoords
        ⟨pm.fromSq, pm.toSq, PieceType.QUEEN, MoveFlag.PROMOTION⟩
        (hvar PieceType.QUEEN (by decide)) hcm rfl rfl
    refine ⟨rm, hres, hrfl, hrq, ?_⟩
    have hrmS := legal_sound hmem
    obtain ⟨-, hto, -, hrest⟩ := hrmS
    rw [hrfl] at hrest
    obtain ⟨hrpawn, -, hrfr, -, -⟩ := hrest
    have hner : rm.fromSq.row ≠ rm.toSq.row := by
      unfold dirOf at hrfr; split_ifs at hrfr <;> omega
    have hermr : rm.toSq.row = (parseMove s).toSq.row := hrc.2.2.1
    have hermc : rm.toSq.col = (parseMove s).toSq.col := hrc.2.2.2
    have hOb2 : onBoard (parseMove s).toSq.row (parseMove s).toSq.col := by
      rw [← hermr, ← hermc]; exact hto
    have hnA : ¬ (onBoard (parseMove s).toSq.row (parseMove s).toSq.col ∧
        (parseMove s).toSq.row = rm.fromSq.row ∧
        (parseMove s).toSq.col = rm.fromSq.col) :=
      fun hcond => hner (hcond.2.1.symm.trans hermr.symm)
    have hpA : onBoard (parseMove s).toSq.row (parseMove s).toSq.col ∧
        (parseMove s).toSq.row = rm.toSq.row ∧
        (parseMove s).toSq.col = rm.toSq.col := ⟨hOb2, hermr.symm, hermc.symm⟩
    rw [makeMove_squares_promo b rm hrfl (by rw [hrpawn]),
      getSq_setSq, if_neg hnA, getSq_setSq, if_pos hpA, hrq, hrpawn]
  · intro h5 hch
    obtain ⟨hfl5, hp5⟩ := parseMove_len5 s h5 hch
    obtain ⟨rm, hres, hmem, hrc, hrfl, hrq⟩ :=
      resolveScan_promo (parseMove s) hfl5 (generateAllLegalMoves b) hcoords
        ⟨pm.fromSq, pm.toSq, PieceType.KNIGHT, MoveFlag.PROMOTION⟩
        (hvar PieceType.KNIGHT (by decide)) hcm rfl (by rw [hp5])
    have hrq' : rm.promotion = PieceType.KNIGHT := hrq.trans hp5
    refine ⟨rm, hres, hrfl, hrq', ?_⟩
    have hrmS := legal_sound hmem
    obtain ⟨-, hto, -, hrest⟩ := hrmS
    rw [hrfl] at hrest
    obtain ⟨hrpawn, -, hrfr, -, -⟩ := hrest
    have hner : rm.fromSq.row ≠ rm.toSq.row := by
      unfold dirOf at hrfr; split_ifs at hrfr <;> omega
    have hermr : rm.toSq.row = (parseMove s).toSq.row := hrc.2.2.1
    have hermc : rm.toSq.col = (parseMove s).toSq.col := hrc.2.2.2
    have hOb2 : onBoard (parseMove s).toSq.row (parseMove s).toSq.col := by
      rw [← hermr, ← hermc]; exact hto
    have hnA : ¬ (onBoard (parseMove s).toSq.row (parseMove s).toSq.col ∧
        (parseMove s).toSq.row = rm.fromSq.row ∧
        (parseMove s).toSq.col = rm.fromSq.col) :=
      fun hcond => hner (hcond.2.1.symm.trans hermr.symm)
    have hpA : onBoard (parseMove s).toSq.row (parseMove s).toSq.col ∧
        (parseMove s).toSq.row = rm.toSq.row ∧
        (parseMove s).toSq.col = rm.toSq.col := ⟨hOb2, hermr.symm, hermc.symm⟩
    rw [makeMove_squares_promo b rm hrfl (by rw [hrpawn]),
      getSq_setSq, if_neg hnA, getSq_setSq, if_pos hpA, hrq', hrpawn]

theorem C6_promotion_resolution_witness :
    (∃ rm, resolveMove promoBoard (parseMove "a7a8") = some rm ∧
      rm.flag = MoveFlag.PROMOTION ∧ rm.promotion = PieceType.QUEEN ∧
      getSq (makeMove promoBoard rm).1.squares (parseMove "a7a8").toSq.row
        (parseMove "a7a8").toSq.col =
        ⟨PieceType.QUEEN, promoBoard.currentPlayer⟩) ∧
    (∃ rm, resolveMove promoBoard (parseMove "a7a8n") = some rm ∧
      rm.flag = MoveFlag.PROMOTION ∧ rm.promotion = PieceType.KNIGHT ∧
      getSq (makeMove promoBoard rm).1.squares (parseMove "a7a8n").toSq.row
        (parseMove "a7a8n").toSq.col =
        ⟨PieceType.KNIGHT, promoBoard.currentPlayer⟩) :=
  ⟨(C6_promotion_resolution promoBoard "a7a8"
      ⟨⟨1, 0⟩, ⟨0, 0⟩, PieceType.QUEEN, MoveFlag.PROMOTION⟩ (by decide)
      (by decide) rfl (by decide)).1 (by decide),
   (C6_promotion_resolution promoBoard "a7a8n"
      ⟨⟨1, 0⟩, ⟨0, 0⟩, PieceType.QUEEN, MoveFlag.PROMOTION⟩ (by decide)
      (by decide) rfl (by decide)).2 (by decide) (by decide)⟩

end Chess
